import Mathlib

/-!
Shallow embedding of the Windows event-log collector (package `eventlog`,
`pkg/formatter/formatter.go` of the repository) together with proofs about it.

Modelling conventions:
* Bytes are `Nat`s; a raw buffer is a `List Nat`.  A read at index `i` is
  `List.getD buf i d` where `d` is the value an out-of-range access would
  yield (the Go code reads through `unsafe.Pointer`, so an out-of-range
  access returns unspecified memory; theorems about memory safety show the
  results do not depend on `d`).
* Go `uint32` arithmetic wraps at `2^32`; the explicit `% U32` below marks
  every place where the Go code computes a `uint32` sum that can wrap.
  The two bounded UTF-16 scan loops come in two renderings: a
  `uint32`-faithful one (suffix `U32`, `Option`-valued, `none` standing for
  the index-out-of-range panic Go raises when the wrapped guard
  `strEnd+1 < len` passes at `strEnd = 2^32 - 1`), and a total no-wrap one
  that the walker pipeline uses.  The agreement theorems
  (`stringScanEndAux_agrees`, `scanSourceEndAux_agrees`,
  `extractStringsAux_agrees`) prove the two renderings equal on every
  buffer of length at most `2^32 - 3`; at lengths `2^32 - 2` and `2^32 - 1`
  the Go loops genuinely panic or wrap the cursor back to index 0, which is
  the subject of C6.
* The OS read loop (`ReadEventLogW`) is modelled by a list of `ReadResult`s:
  each iteration of the Go read loop consumes one element.  A `failure`
  carries the `errno` the call would set.
* `GetLocalComputerName` is an OS query; its result is the
  `localComputerName` parameter.
-/

/-- `2^32`, the modulus of Go `uint32` arithmetic. -/
def U32 : Nat := 4294967296

/-- Read one byte of the raw buffer; `d` is the unspecified value produced by
an out-of-range access. -/
def byteAt (d : Nat) (buf : List Nat) (i : Nat) : Nat :=
  List.getD buf i d

/-- Little-endian 16-bit read, as the x86 `uint16` load performed by the Go
struct overlay. -/
def readU16 (d : Nat) (buf : List Nat) (i : Nat) : Nat :=
  byteAt d buf i % 256 + 256 * (byteAt d buf (i + 1) % 256)

/-- Little-endian 32-bit read, as the x86 `uint32` load performed by the Go
struct overlay. -/
def readU32 (d : Nat) (buf : List Nat) (i : Nat) : Nat :=
  readU16 d buf i + 65536 * readU16 d buf (i + 2)

/-- `sizeof_EVENTLOGRECORD` from the source: the fixed 56-byte header. -/
def sizeof_EVENTLOGRECORD : Nat := 56

/-- The `EVENTLOGRECORD` fixed header (all fields widened to `Nat`;
16-bit fields are < 2^16 and 32-bit fields < 2^32 by construction of the
reads). -/
structure EVENTLOGRECORD where
  Length : Nat
  Reserved : Nat
  RecordNumber : Nat
  TimeGenerated : Nat
  TimeWritten : Nat
  EventID : Nat
  EventType : Nat
  NumStrings : Nat
  EventCategory : Nat
  ReservedFlags : Nat
  ClosingRecordNumber : Nat
  StringOffset : Nat
  UserSidLength : Nat
  UserSidOffset : Nat
  DataLength : Nat
  DataOffset : Nat
  deriving DecidableEq, Repr

/-- Decode the fixed header at byte offset `o`, field by field, mirroring the
Go overlay `(*EVENTLOGRECORD)(unsafe.Pointer(&buffer[offset]))` on a
little-endian machine. -/
def decodeRecord (d : Nat) (buf : List Nat) (o : Nat) : EVENTLOGRECORD where
  Length := readU32 d buf o
  Reserved := readU32 d buf (o + 4)
  RecordNumber := readU32 d buf (o + 8)
  TimeGenerated := readU32 d buf (o + 12)
  TimeWritten := readU32 d buf (o + 16)
  EventID := readU32 d buf (o + 20)
  EventType := readU16 d buf (o + 24)
  NumStrings := readU16 d buf (o + 26)
  EventCategory := readU16 d buf (o + 28)
  ReservedFlags := readU16 d buf (o + 30)
  ClosingRecordNumber := readU32 d buf (o + 32)
  StringOffset := readU32 d buf (o + 36)
  UserSidLength := readU32 d buf (o + 40)
  UserSidOffset := readU32 d buf (o + 44)
  DataLength := readU32 d buf (o + 48)
  DataOffset := readU32 d buf (o + 52)

/-- The processed entry produced per record (`EventLogData` in the source). -/
structure EventLogData where
  RecordNumber : Nat
  TimeGenerated : Nat
  TimeWritten : Nat
  EventID : Nat
  EventType : Nat
  EventCategory : Nat
  SourceName : String
  ComputerName : String
  Strings : List String
  Data : List Nat
  deriving DecidableEq, Repr

/-- UTF-16 decoding as performed by `syscall.UTF16ToString`: stop at the
first NUL unit, combine well-formed surrogate pairs, and replace unpaired
surrogates by U+FFFD. -/
def utf16Decode : List Nat → List Char
  | [] => []
  | [u] =>
    if u = 0 then []
    else if (55296 ≤ u ∧ u < 56320) ∨ (56320 ≤ u ∧ u < 57344) then [Char.ofNat 65533]
    else [Char.ofNat u]
  | u :: u2 :: rest2 =>
    if u = 0 then []
    else if 55296 ≤ u ∧ u < 56320 then
      if 56320 ≤ u2 ∧ u2 < 57344 then
        Char.ofNat (65536 + (u - 55296) * 1024 + (u2 - 56320)) :: utf16Decode rest2
      else
        Char.ofNat 65533 :: utf16Decode (u2 :: rest2)
    else if 56320 ≤ u ∧ u < 57344 then
      Char.ofNat 65533 :: utf16Decode (u2 :: rest2)
    else
      Char.ofNat u :: utf16Decode (u2 :: rest2)

/-- `syscall.UTF16ToString` on a list of UTF-16 code units. -/
def utf16ToString (us : List Nat) : String :=
  String.mk (utf16Decode us)

/-- Read `k` little-endian UTF-16 code units starting at byte `start`
(the slice `(*[N]uint16)(unsafe.Pointer(&buffer[start]))[:k]`). -/
def readUnits (d : Nat) (buf : List Nat) (start : Nat) : Nat → List Nat
  | 0 => []
  | k + 1 => readU16 d buf start :: readUnits d buf (start + 2) k

/-- The scan loop of `GetSourceFromEvent`, iterated structurally on a step
counter `k`: advance `e` two bytes at a time while the 16-bit unit at `e` is
nonzero and in bounds; after each step break once `e - start` exceeds 1024
bytes.  This is the no-wrap rendering of the loop, with the sums
`e + 1`, `e + 2`, `e + 2 - start` exact; `scanSourceEndAux_agrees` proves it
equal to the `uint32`-faithful `scanSourceEndAuxU32` on every buffer of
length at most `2^32 - 3`. -/
def scanSourceEndAux (d : Nat) (buf : List Nat) (start : Nat) : Nat → Nat → Nat
  | 0, e => e
  | k + 1, e =>
    if e + 1 < buf.length ∧ (byteAt d buf e ≠ 0 ∨ byteAt d buf (e + 1) ≠ 0) then
      if 1024 < e + 2 - start then e + 2
      else scanSourceEndAux d buf start k (e + 2)
    else e

/-- The scan loop of `GetSourceFromEvent`, started with enough steps: the
1024-byte cap breaks the loop at its 513th iteration at the latest, so 513
steps always reproduce the whole loop. -/
def scanSourceEnd (d : Nat) (buf : List Nat) (start : Nat) (e : Nat) : Nat :=
  scanSourceEndAux d buf start 513 e

/-- `strings.HasPrefix`, on the character lists underlying the strings. -/
def goHasPrefix (s pre : String) : Bool :=
  List.isPrefixOf pre.data s.data

/-- `strings.Split` with a one-character separator, on the underlying
character list; like the Go function it always returns at least one piece. -/
def goSplitChar (sep : Char) : List Char → List (List Char)
  | [] => [[]]
  | c :: rest =>
    if c = sep then [] :: goSplitChar sep rest
    else
      match goSplitChar sep rest with
      | [] => [[c]]
      | g :: gs => (c :: g) :: gs

/-- `strings.Split(logName, "/")`. -/
def goSplitSlash (logName : String) : List String :=
  (goSplitChar '/' logName.data).map String.mk

/-- The fallback chain at the end of `GetSourceFromEvent` (well-known logs,
the `Microsoft-Windows-` split, then the sentinel). `strings.Split` never
returns an empty list, so the `headD` default is never used, matching the
Go `len(parts) > 0` guard. -/
def sourceFallback (logName : String) : String :=
  if logName = "System" ∨ logName = "Application" ∨ logName = "Security" then logName
  else if goHasPrefix logName "Microsoft-Windows-" then
    (goSplitSlash logName).headD "EventLog"
  else "EventLog"

/-- `GetSourceFromEvent`.  The Go function also receives the decoded
`record` pointer but never uses it.  Note the source scans from
`offset + 8*4 = offset + 32`, inside the 56-byte header. -/
def GetSourceFromEvent (d : Nat) (logName : String) (buf : List Nat) (offset : Nat) : String :=
  let sourceStart := (offset + 8 * 4) % U32
  let sourceEnd := scanSourceEnd d buf sourceStart sourceStart
  let strLen := (sourceEnd - sourceStart) / 2
  if 0 < strLen ∧ strLen < 1024 then
    let sourceName := utf16ToString (readUnits d buf sourceStart strLen)
    if sourceName ≠ "" then sourceName else sourceFallback logName
  else sourceFallback logName

/-- The per-string scan loop of the string-list extractor, iterated
structurally on a step counter `k`: advance `e` two bytes at a time while the
16-bit unit at `e` is nonzero and in bounds; after each step break once
`e - start` exceeds 32768 bytes.  This is the no-wrap rendering of the loop,
with the sums `e + 1`, `e + 2`, `e + 2 - start` exact;
`stringScanEndAux_agrees` proves it equal to the `uint32`-faithful
`stringScanEndAuxU32` on every buffer of length at most `2^32 - 3`. -/
def stringScanEndAux (d : Nat) (buf : List Nat) (start : Nat) : Nat → Nat → Nat
  | 0, e => e
  | k + 1, e =>
    if e + 1 < buf.length ∧ (byteAt d buf e ≠ 0 ∨ byteAt d buf (e + 1) ≠ 0) then
      if 32768 < e + 2 - start then e + 2
      else stringScanEndAux d buf start k (e + 2)
    else e

/-- The per-string scan loop, started with enough steps: the 32768-byte cap
breaks the loop at its 16385th iteration at the latest, so 16385 steps
always reproduce the whole loop. -/
def stringScanEnd (d : Nat) (buf : List Nat) (start : Nat) (e : Nat) : Nat :=
  stringScanEndAux d buf start 16385 e

/-- The body of the `for i := uint16(0); i < record.NumStrings; i++` loop:
one recursion step per declared string, cursor `ptr` at the next string.
This is the no-wrap rendering (exact `e + 2` in the tail check);
`extractStringsAux_agrees` proves it equal to the `uint32`-faithful
`extractStringsAuxU32` on every buffer of length at most `2^32 - 3`. -/
def extractStringsAux (d : Nat) (buf : List Nat) : Nat → Nat → List String
  | 0, _ => []
  | i + 1, ptr =>
    if buf.length ≤ ptr then []
    else
      let e := stringScanEnd d buf ptr ptr
      let strLen := (e - ptr) / 2
      let cur := if 0 < strLen ∧ strLen < 16384 then
                   [utf16ToString (readUnits d buf ptr strLen)]
                 else []
      if buf.length ≤ e + 2 then cur
      else cur ++ extractStringsAux d buf i (e + 2)

/-- String extraction for one record (`event.Strings`), including the outer
`NumStrings > 0 && StringOffset > 0` and `stringsPtr < len(buffer)` guards. -/
def extractStrings (d : Nat) (buf : List Nat) (offset : Nat) (r : EVENTLOGRECORD) : List String :=
  if 0 < r.NumStrings ∧ 0 < r.StringOffset then
    let ptr := (offset + r.StringOffset) % U32
    if ptr < buf.length then extractStringsAux d buf r.NumStrings ptr else []
  else []

/-- Go `uint32` subtraction `a - b`, for operand values below `2^32`. -/
def u32sub (a b : Nat) : Nat :=
  (a + (U32 - b % U32)) % U32

/-- The `uint32`-faithful per-string scan loop.  The guard computes the Go
sum `strEnd+1` modulo `2^32`; when it passes, the checked access
`buffer[strEnd]` panics — rendered `none` — if `strEnd` is out of range
(reachable exactly when the guard sum wrapped, at `strEnd = 2^32 - 1` on a
buffer of length `2^32 - 1`); the second byte's index, the cursor step and
the cap subtraction are likewise `uint32`.  The step counter is never
exhausted: the cap breaks the loop at its 16385th iteration at the latest,
so the fuel-0 arm is unreachable from `stringScanEndU32`. -/
def stringScanEndAuxU32 (d : Nat) (buf : List Nat) (start : Nat) :
    Nat → Nat → Option Nat
  | 0, e => some e
  | k + 1, e =>
    if (e + 1) % U32 < buf.length then
      if buf.length ≤ e then none
      else if byteAt d buf e ≠ 0 ∨ byteAt d buf ((e + 1) % U32) ≠ 0 then
        if 32768 < u32sub ((e + 2) % U32) start then some ((e + 2) % U32)
        else stringScanEndAuxU32 d buf start k ((e + 2) % U32)
      else some e
    else some e

/-- The `uint32`-faithful per-string scan loop, started with enough steps. -/
def stringScanEndU32 (d : Nat) (buf : List Nat) (start e : Nat) : Option Nat :=
  stringScanEndAuxU32 d buf start 16385 e

/-- The `uint32`-faithful scan loop of `GetSourceFromEvent` (cap 1024
bytes), with the same panic rendering as `stringScanEndAuxU32`. -/
def scanSourceEndAuxU32 (d : Nat) (buf : List Nat) (start : Nat) :
    Nat → Nat → Option Nat
  | 0, e => some e
  | k + 1, e =>
    if (e + 1) % U32 < buf.length then
      if buf.length ≤ e then none
      else if byteAt d buf e ≠ 0 ∨ byteAt d buf ((e + 1) % U32) ≠ 0 then
        if 1024 < u32sub ((e + 2) % U32) start then some ((e + 2) % U32)
        else scanSourceEndAuxU32 d buf start k ((e + 2) % U32)
      else some e
    else some e

/-- The `uint32`-faithful `GetSourceFromEvent` scan, started with enough
steps (the 1024-byte cap breaks the loop at its 513th iteration at the
latest). -/
def scanSourceEndU32 (d : Nat) (buf : List Nat) (start e : Nat) : Option Nat :=
  scanSourceEndAuxU32 d buf start 513 e

/-- The `uint32`-faithful string-extraction loop: the scan's panic
propagates as `none`, the decoded length is the `uint32` difference
`(strEnd - strStart) / 2`, and the tail check and next cursor compute the
Go sum `strEnd+2` modulo `2^32` — so on a buffer of length `2^32 - 2` a
string ending at the last two bytes wraps the cursor to 0 and extraction
continues from the buffer start, exactly as the Go loop does. -/
def extractStringsAuxU32 (d : Nat) (buf : List Nat) : Nat → Nat → Option (List String)
  | 0, _ => some []
  | i + 1, ptr =>
    if buf.length ≤ ptr then some []
    else
      match stringScanEndU32 d buf ptr ptr with
      | none => none
      | some e =>
        let strLen := u32sub e ptr / 2
        let cur := if 0 < strLen ∧ strLen < 16384 then
                     [utf16ToString (readUnits d buf ptr strLen)]
                   else []
        if buf.length ≤ (e + 2) % U32 then some cur
        else
          match extractStringsAuxU32 d buf i ((e + 2) % U32) with
          | none => none
          | some rest => some (cur ++ rest)

/-- Binary payload extraction for one record (`event.Data`), with the end
position clamped to the buffer length. -/
def extractData (buf : List Nat) (offset : Nat) (r : EVENTLOGRECORD) : List Nat :=
  if 0 < r.DataLength ∧ 0 < r.DataOffset then
    let dataStart := (offset + r.DataOffset) % U32
    if dataStart < buf.length then
      let dataEnd0 := (dataStart + r.DataLength) % U32
      let dataEnd := if buf.length < dataEnd0 then buf.length else dataEnd0
      if dataStart < dataEnd then (buf.drop dataStart).take (dataEnd - dataStart) else []
    else []
  else []

/-- Construction of one `EventLogData` from a validated record at `offset`
(lines building `event` in `CollectWindowsEventLogs`), including the
low-16-bit masking of the raw event id. -/
def buildEvent (d : Nat) (logName localComputerName : String) (buf : List Nat)
    (offset : Nat) : EventLogData :=
  let record := decodeRecord d buf offset
  { RecordNumber := record.RecordNumber
    TimeGenerated := record.TimeGenerated
    TimeWritten := record.TimeWritten
    EventID := record.EventID % 65536
    EventType := record.EventType
    EventCategory := record.EventCategory
    SourceName := GetSourceFromEvent d logName buf offset
    ComputerName := localComputerName
    Strings := extractStrings d buf offset record
    Data := extractData buf offset record }

/-- The per-record allow-list filter (`specificEventIDs` check): an empty
list keeps everything, otherwise the masked id must be a member. -/
def passFilter (allow : List Nat) (ev : EventLogData) : Bool :=
  if allow.isEmpty then true else allow.contains ev.EventID


/-- `ERROR_NO_MORE_ITEMS` (259): clean end of the log. -/
def ERROR_NO_MORE_ITEMS : Nat := 259

/-- `syscall.ERROR_INSUFFICIENT_BUFFER` (122): the buffer was too small. -/
def ERROR_INSUFFICIENT_BUFFER : Nat := 122

/-- One outcome of a `ReadEventLogW` call: either a filled buffer of
`bytesRead` bytes, or a failure with the given `errno` and the
`bytesNeeded` value reported alongside it. -/
inductive ReadResult where
  | success (buf : List Nat) (bytesRead : Nat)
  | failure (errno : Nat) (bytesNeeded : Nat)
  deriving DecidableEq, Repr

/-- The inner record-walking loop of `CollectWindowsEventLogs`
(`for offset < bytesRead`), with the running `logs` accumulator, the capped
`target` (`totalRecords` after the `maxEvents` cap), and explicit fuel.
`none` means the given fuel did not suffice to finish the loop.
Cursor sums are `uint32` sums (`% U32`), exactly as in the Go source. -/
def walkFuel (d : Nat) (ln comp : String) (allow : List Nat) (buf : List Nat)
    (n target : Nat) : Nat → Nat → List EventLogData → Option (List EventLogData)
  | 0, _, _ => none
  | fuel + 1, offset, logs =>
    if offset < n then
      if n < (offset + sizeof_EVENTLOGRECORD) % U32 then some logs
      else
        let r := decodeRecord d buf offset
        if r.Length < sizeof_EVENTLOGRECORD ∨ n - offset < r.Length then
          let o2 := (offset + 8) % U32
          if n ≤ o2 then some logs
          else walkFuel d ln comp allow buf n target fuel o2 logs
        else
          let ev := buildEvent d ln comp buf offset
          let logs2 := if passFilter allow ev then logs ++ [ev] else logs
          if target ≤ logs2.length then some logs2
          else walkFuel d ln comp allow buf n target fuel (offset + r.Length) logs2
    else some logs

/-- The same record walk without the `totalRecords` cap, returning the
records it collects from this buffer alone (used to state what a buffer
makes available). -/
def walkAllFuel (d : Nat) (ln comp : String) (allow : List Nat) (buf : List Nat)
    (n : Nat) : Nat → Nat → Option (List EventLogData)
  | 0, _ => none
  | fuel + 1, offset =>
    if offset < n then
      if n < (offset + sizeof_EVENTLOGRECORD) % U32 then some []
      else
        let r := decodeRecord d buf offset
        if r.Length < sizeof_EVENTLOGRECORD ∨ n - offset < r.Length then
          let o2 := (offset + 8) % U32
          if n ≤ o2 then some []
          else walkAllFuel d ln comp allow buf n fuel o2
        else
          let ev := buildEvent d ln comp buf offset
          Option.map (fun rest => (if passFilter allow ev then [ev] else []) ++ rest)
            (walkAllFuel d ln comp allow buf n fuel (offset + r.Length))
    else some []

/-- The offsets at which the walk meets a record with a valid declared
length (the decodable records of a buffer), independent of any filtering. -/
def walkOffsets (d : Nat) (buf : List Nat) (n : Nat) : Nat → Nat → Option (List Nat)
  | 0, _ => none
  | fuel + 1, offset =>
    if offset < n then
      if n < (offset + sizeof_EVENTLOGRECORD) % U32 then some []
      else
        let r := decodeRecord d buf offset
        if r.Length < sizeof_EVENTLOGRECORD ∨ n - offset < r.Length then
          let o2 := (offset + 8) % U32
          if n ≤ o2 then some []
          else walkOffsets d buf n fuel o2
        else
          Option.map (fun rest => offset :: rest)
            (walkOffsets d buf n fuel (offset + r.Length))
    else some []

/-- The outer read loop of `CollectWindowsEventLogs`
(`for len(logs) < int(totalRecords)`), consuming one `ReadResult` per
`ReadEventLogW` call.  `errno` 259 ends the loop cleanly, 122 resizes the
buffer and retries, anything else aborts with the partial result and the
error.  `none` means the modelled read stream ended while the loop still
wanted to read (or a walk ran out of fuel), i.e. the model cannot say what
the Go code does next. -/
def collectLoop (d : Nat) (ln comp : String) (allow : List Nat) (target : Nat) :
    List ReadResult → List EventLogData → Option (List EventLogData × Option Nat)
  | reads, logs =>
    if logs.length < target then
      match reads with
      | [] => none
      | ReadResult.success buf n :: rest =>
        match walkFuel d ln comp allow buf n target (n + 1) 0 logs with
        | some logs2 => collectLoop d ln comp allow target rest logs2
        | none => none
      | ReadResult.failure errno _ :: rest =>
        if errno = ERROR_NO_MORE_ITEMS then some (logs, none)
        else if errno = ERROR_INSUFFICIENT_BUFFER then
          collectLoop d ln comp allow target rest logs
        else some (logs, some errno)
    else some (logs, none)

/-- `CollectWindowsEventLogs` from the point where `totalRecords` has been
queried: apply the `maxEvents` cap to the reported record count and run the
read loop with an empty accumulator. -/
def CollectWindowsEventLogs (d : Nat) (logName localComputerName : String)
    (maxEvents : Int) (specificEventIDs : List Nat) (totalRecords : Nat)
    (reads : List ReadResult) : Option (List EventLogData × Option Nat) :=
  let target := if 0 < maxEvents ∧ maxEvents < (totalRecords : Int)
                then maxEvents.toNat else totalRecords
  collectLoop d logName localComputerName specificEventIDs target reads []

/-- How many filter-passing records the read stream makes available before
its first terminating signal (its records "available" to the collector). -/
def streamPassing (d : Nat) (ln comp : String) (allow : List Nat) :
    List ReadResult → Nat
  | [] => 0
  | ReadResult.success buf n :: rest =>
    match walkAllFuel d ln comp allow buf n (n + 1) 0 with
    | some a => a.length + streamPassing d ln comp allow rest
    | none => 0
  | ReadResult.failure errno _ :: rest =>
    if errno = ERROR_INSUFFICIENT_BUFFER then streamPassing d ln comp allow rest
    else 0

/-- A read stream whose walks all terminate and that ends with a clean
no-more-items signal, possibly after transparent buffer-resize retries. -/
def cleanStream (d : Nat) (ln comp : String) (allow : List Nat) :
    List ReadResult → Bool
  | [] => false
  | ReadResult.success buf n :: rest =>
    (walkAllFuel d ln comp allow buf n (n + 1) 0).isSome &&
      cleanStream d ln comp allow rest
  | ReadResult.failure errno _ :: rest =>
    errno == ERROR_NO_MORE_ITEMS ||
      (errno == ERROR_INSUFFICIENT_BUFFER && cleanStream d ln comp allow rest)

/-- Left-pad to two digits, as `%02d` does for the values in range here. -/
def pad2 (n : Nat) : String :=
  if n < 10 then "0" ++ toString n else toString n

/-- Left-pad to four digits, as `%04d` does for the values in range here. -/
def pad4 (n : Nat) : String :=
  if n < 10 then "000" ++ toString n
  else if n < 100 then "00" ++ toString n
  else if n < 1000 then "0" ++ toString n
  else toString n

/-- `WindowsTimeToTime`: the Go source divides by fixed 31536000-second
years and 2592000-second months (`syscall.NsecToTimeval(x*1e9).Sec = x`
for the `uint32` inputs in range). -/
def WindowsTimeToTime (windowsTime : Nat) : String :=
  let sec := windowsTime
  pad4 (1970 + sec / 31536000) ++ "-" ++
  pad2 (sec % 31536000 / 2592000 + 1) ++ "-" ++
  pad2 (sec % 31536000 % 2592000 / 86400 + 1) ++ " " ++
  pad2 (sec % 31536000 % 2592000 % 86400 / 3600) ++ ":" ++
  pad2 (sec % 31536000 % 2592000 % 86400 % 3600 / 60) ++ ":" ++
  pad2 (sec % 31536000 % 2592000 % 86400 % 3600 % 60)

/-- Little-endian byte encoding of a 32-bit value (for building test
buffers). -/
def u32le (x : Nat) : List Nat :=
  [x % 256, x / 256 % 256, x / 65536 % 256, x / 16777216 % 256]

/-- Little-endian byte encoding of a 16-bit value (for building test
buffers). -/
def u16le (x : Nat) : List Nat :=
  [x % 256, x / 256 % 256]

/-- Build a 56-byte `EVENTLOGRECORD` header from its field values. -/
def headerBytes (len recNum tg tw eid etype nstr cat flags closing soff
    sidlen sidoff dlen doff : Nat) : List Nat :=
  u32le len ++ u32le 0 ++ u32le recNum ++ u32le tg ++ u32le tw ++ u32le eid ++
  u16le etype ++ u16le nstr ++ u16le cat ++ u16le flags ++ u32le closing ++
  u32le soff ++ u32le sidlen ++ u32le sidoff ++ u32le dlen ++ u32le doff

/-- A corrupt record: declared length 3, below the 56-byte header size. -/
def recInvalid : List Nat := headerBytes 3 1 0 0 0 0 0 0 0 0 0 0 0 0 0

/-- A minimal well-formed record: header only, record number 2. -/
def recB : List Nat := headerBytes 56 2 111 222 100 1 0 7 0 0 0 0 0 0 0

/-- A minimal well-formed record with high bits set in its raw event id
(`0x23456`), record number 3. -/
def recC : List Nat := headerBytes 56 3 0 0 144470 2 0 0 0 0 0 0 0 0 0

/-- Corruption-containment buffer: one record with an invalid declared
length followed by two well-formed records. -/
def bufCorrupt : List Nat := recInvalid ++ recB ++ recC

/-- The decoded form of `recB` (channel "System", computer "PC"). -/
def evB : EventLogData :=
  { RecordNumber := 2, TimeGenerated := 111, TimeWritten := 222, EventID := 100
    EventType := 1, EventCategory := 7, SourceName := "System"
    ComputerName := "PC", Strings := [], Data := [] }

/-- The decoded form of `recC`: the raw id `0x23456` is masked to
`0x3456 = 13398`. -/
def evC : EventLogData :=
  { RecordNumber := 3, TimeGenerated := 0, TimeWritten := 0, EventID := 13398
    EventType := 2, EventCategory := 0, SourceName := "System"
    ComputerName := "PC", Strings := [], Data := [] }

/-- Every entry a walk returns was either already accumulated or is the
decoding of some record of this buffer that passed the filter. -/
theorem walkFuel_mem (d : Nat) (ln comp : String) (allow : List Nat)
    (buf : List Nat) (n target : Nat) :
    ∀ fuel offset logs L,
      walkFuel d ln comp allow buf n target fuel offset logs = some L →
      ∀ ev ∈ L, ev ∈ logs ∨
        ∃ o, ev = buildEvent d ln comp buf o ∧ passFilter allow ev = true := by
  intro fuel
  induction fuel with
  | zero => intro offset logs L h; simp [walkFuel] at h
  | succ fuel ih =>
    intro offset logs L h ev hev
    simp only [walkFuel] at h
    by_cases h1 : offset < n
    · rw [if_pos h1] at h
      by_cases h2 : n < (offset + sizeof_EVENTLOGRECORD) % U32
      · rw [if_pos h2] at h
        obtain rfl : logs = L := Option.some.inj h
        exact Or.inl hev
      · rw [if_neg h2] at h
        by_cases h3 : (decodeRecord d buf offset).Length < sizeof_EVENTLOGRECORD ∨
            n - offset < (decodeRecord d buf offset).Length
        · rw [if_pos h3] at h
          by_cases h4 : n ≤ (offset + 8) % U32
          · rw [if_pos h4] at h
            obtain rfl : logs = L := Option.some.inj h
            exact Or.inl hev
          · rw [if_neg h4] at h
            exact ih _ _ _ h ev hev
        · rw [if_neg h3] at h
          by_cases h5 : passFilter allow (buildEvent d ln comp buf offset) = true
          · rw [if_pos h5] at h
            by_cases h6 : target ≤ (logs ++ [buildEvent d ln comp buf offset]).length
            · rw [if_pos h6] at h
              obtain rfl : logs ++ [buildEvent d ln comp buf offset] = L :=
                Option.some.inj h
              rcases List.mem_append.1 hev with hl | hr
              · exact Or.inl hl
              · obtain rfl : ev = buildEvent d ln comp buf offset :=
                  List.mem_singleton.1 hr
                exact Or.inr ⟨offset, rfl, h5⟩
            · rw [if_neg h6] at h
              rcases ih _ _ _ h ev hev with hl | hr
              · rcases List.mem_append.1 hl with hll | hlr
                · exact Or.inl hll
                · obtain rfl : ev = buildEvent d ln comp buf offset :=
                    List.mem_singleton.1 hlr
                  exact Or.inr ⟨offset, rfl, h5⟩
              · exact Or.inr hr
          · rw [if_neg h5] at h
            by_cases h6 : target ≤ logs.length
            · rw [if_pos h6] at h
              obtain rfl : logs = L := Option.some.inj h
              exact Or.inl hev
            · rw [if_neg h6] at h
              exact ih _ _ _ h ev hev
    · rw [if_neg h1] at h
      obtain rfl : logs = L := Option.some.inj h
      exact Or.inl hev

/-- Every entry the read loop returns was either already accumulated or is
the decoding of a record of one of the stream's buffers that passed the
filter. -/
theorem collectLoop_mem (d : Nat) (ln comp : String) (allow : List Nat)
    (target : Nat) :
    ∀ reads logs L e,
      collectLoop d ln comp allow target reads logs = some (L, e) →
      ∀ ev ∈ L, ev ∈ logs ∨
        ∃ buf n o, ReadResult.success buf n ∈ reads ∧
          ev = buildEvent d ln comp buf o ∧ passFilter allow ev = true := by
  intro reads
  induction reads with
  | nil =>
    intro logs L e h ev hev
    simp only [collectLoop] at h
    by_cases h1 : logs.length < target
    · rw [if_pos h1] at h; exact absurd h (by simp)
    · rw [if_neg h1] at h
      obtain ⟨rfl, rfl⟩ : logs = L ∧ (none : Option Nat) = e := by
        have := Option.some.inj h
        exact ⟨congrArg Prod.fst this, congrArg Prod.snd this⟩
      exact Or.inl hev
  | cons r rest ih =>
    intro logs L e h ev hev
    cases r with
    | success buf n =>
      simp only [collectLoop] at h
      by_cases h1 : logs.length < target
      · rw [if_pos h1] at h
        cases hw : walkFuel d ln comp allow buf n target (n + 1) 0 logs with
        | none => rw [hw] at h; exact absurd h (by simp)
        | some logs2 =>
          rw [hw] at h
          rcases ih _ _ _ h ev hev with hl | ⟨buf', n', o, hmem, hb, hp⟩
          · rcases walkFuel_mem d ln comp allow buf n target _ _ _ _ hw ev hl with
              hll | ⟨o, hb, hp⟩
            · exact Or.inl hll
            · exact Or.inr ⟨buf, n, o, List.mem_cons_self _ _, hb, hp⟩
          · exact Or.inr ⟨buf', n', o, List.mem_cons_of_mem _ hmem, hb, hp⟩
      · rw [if_neg h1] at h
        have := Option.some.inj h
        obtain rfl : logs = L := congrArg Prod.fst this
        exact Or.inl hev
    | failure errno k =>
      simp only [collectLoop] at h
      by_cases h1 : logs.length < target
      · rw [if_pos h1] at h
        by_cases h2 : errno = ERROR_NO_MORE_ITEMS
        · rw [if_pos h2] at h
          have := Option.some.inj h
          obtain rfl : logs = L := congrArg Prod.fst this
          exact Or.inl hev
        · rw [if_neg h2] at h
          by_cases h3 : errno = ERROR_INSUFFICIENT_BUFFER
          · rw [if_pos h3] at h
            rcases ih _ _ _ h ev hev with hl | ⟨buf', n', o, hmem, hb, hp⟩
            · exact Or.inl hl
            · exact Or.inr ⟨buf', n', o, List.mem_cons_of_mem _ hmem, hb, hp⟩
          · rw [if_neg h3] at h
            have := Option.some.inj h
            obtain rfl : logs = L := congrArg Prod.fst this
            exact Or.inl hev
      · rw [if_neg h1] at h
        have := Option.some.inj h
        obtain rfl : logs = L := congrArg Prod.fst this
        exact Or.inl hev

/-- C1: every record decoded by `CollectWindowsEventLogs` carries an
`EventID` equal to the raw 32-bit event id of its record (the little-endian
`uint32` at byte 20 of the header) masked to its low 16 bits, whatever the
raw value's high bits. -/
theorem c1_eventId_masked (d : Nat) (logName localComputerName : String)
    (maxEvents : Int) (specificEventIDs : List Nat) (totalRecords : Nat)
    (reads : List ReadResult) (L : List EventLogData) (e : Option Nat)
    (h : CollectWindowsEventLogs d logName localComputerName maxEvents
      specificEventIDs totalRecords reads = some (L, e))
    (ev : EventLogData) (hev : ev ∈ L) :
    ev.EventID < 65536 ∧
      ∃ buf n o, ReadResult.success buf n ∈ reads ∧
        ev.EventID = readU32 d buf (o + 20) % 65536 := by
  simp only [CollectWindowsEventLogs] at h
  rcases collectLoop_mem d logName localComputerName specificEventIDs _
      reads [] L e h ev hev with hl | ⟨buf, n, o, hmem, hb, _⟩
  · simp at hl
  · subst hb
    exact ⟨Nat.mod_lt _ (by norm_num), buf, n, o, hmem, rfl⟩

set_option maxRecDepth 8000 in
/-- Witness for C1 at a concrete collection whose second record has raw
event id `0x23456`; the result's id is the masked `0x3456 = 13398`. -/
theorem c1_eventId_masked_witness :
    CollectWindowsEventLogs 0 "System" "PC" 0 [] 5
      [ReadResult.success bufCorrupt 168, ReadResult.failure 259 0] =
      some ([evB, evC], none) ∧
    evC ∈ [evB, evC] ∧
    (evC.EventID < 65536 ∧
      ∃ buf n o,
        ReadResult.success buf n ∈
          [ReadResult.success bufCorrupt 168, ReadResult.failure 259 0] ∧
        evC.EventID = readU32 0 buf (o + 20) % 65536) :=
  ⟨by decide, by decide,
    c1_eventId_masked 0 "System" "PC" 0 [] 5 _ [evB, evC] none (by decide)
      evC (by decide)⟩

/-- C2: on a header with an invalid declared length (below the 56-byte
header size or beyond the bytes remaining) the walker advances the cursor by
the fixed 8-byte realignment step, not the declared length, and continues;
and concretely, a buffer holding one record of declared length 3 followed by
two well-formed records yields exactly those two records, in order, with no
error surfaced. -/
theorem c2_corruption_realignment :
    (∀ (d : Nat) (ln comp : String) (allow buf : List Nat)
        (n target fuel offset : Nat) (logs : List EventLogData),
      offset < n →
      (offset + sizeof_EVENTLOGRECORD) % U32 ≤ n →
      ((decodeRecord d buf offset).Length < sizeof_EVENTLOGRECORD ∨
        n - offset < (decodeRecord d buf offset).Length) →
      walkFuel d ln comp allow buf n target (fuel + 1) offset logs =
        if n ≤ (offset + 8) % U32 then some logs
        else walkFuel d ln comp allow buf n target fuel ((offset + 8) % U32) logs) ∧
    CollectWindowsEventLogs 0 "System" "PC" 0 [] 5
      [ReadResult.success bufCorrupt 168, ReadResult.failure 259 0] =
      some ([evB, evC], none) := by
  constructor
  · intro d ln comp allow buf n target fuel offset logs h1 h2 h3
    simp only [walkFuel]
    rw [if_pos h1, if_neg (not_lt.2 h2), if_pos h3]
  · set_option maxRecDepth 8000 in decide

/-- Witness for the realignment step of C2, at the corrupt record of
`bufCorrupt` (declared length 3 at offset 0). -/
theorem c2_corruption_realignment_witness :
    (0 : Nat) < 168 ∧
    (0 + sizeof_EVENTLOGRECORD) % U32 ≤ 168 ∧
    ((decodeRecord 0 bufCorrupt 0).Length < sizeof_EVENTLOGRECORD ∨
      168 - 0 < (decodeRecord 0 bufCorrupt 0).Length) ∧
    walkFuel 0 "System" "PC" [] bufCorrupt 168 5 (3 + 1) 0 [] =
      (if 168 ≤ (0 + 8) % U32 then some []
       else walkFuel 0 "System" "PC" [] bufCorrupt 168 5 3 ((0 + 8) % U32) []) :=
  ⟨by decide, by decide, by decide,
    c2_corruption_realignment.1 0 "System" "PC" [] bufCorrupt 168 5 3 0 []
      (by decide) (by decide) (by decide)⟩

/-- C9: a sequential read failing with anything other than the two
recoverable signals aborts the loop and surfaces the records decoded so far
with a non-nil error; the insufficient-buffer signal is retried
transparently and the no-more-items signal ends decoding cleanly, so
neither is surfaced. -/
theorem c9_read_error_taxonomy :
    (∀ (d : Nat) (ln comp : String) (allow : List Nat) (target errno k : Nat)
        (rest : List ReadResult) (logs : List EventLogData),
      logs.length < target →
      errno ≠ ERROR_NO_MORE_ITEMS →
      errno ≠ ERROR_INSUFFICIENT_BUFFER →
      collectLoop d ln comp allow target (ReadResult.failure errno k :: rest) logs =
        some (logs, some errno)) ∧
    (∀ (d : Nat) (ln comp : String) (allow : List Nat) (target k : Nat)
        (rest : List ReadResult) (logs : List EventLogData),
      logs.length < target →
      collectLoop d ln comp allow target
          (ReadResult.failure ERROR_INSUFFICIENT_BUFFER k :: rest) logs =
        collectLoop d ln comp allow target rest logs) ∧
    (∀ (d : Nat) (ln comp : String) (allow : List Nat) (target k : Nat)
        (rest : List ReadResult) (logs : List EventLogData),
      logs.length < target →
      collectLoop d ln comp allow target
          (ReadResult.failure ERROR_NO_MORE_ITEMS k :: rest) logs =
        some (logs, none)) := by
  refine ⟨?_, ?_, ?_⟩
  · intro d ln comp allow target errno k rest logs h1 h2 h3
    simp only [collectLoop]
    rw [if_pos h1, if_neg h2, if_neg h3]
  · intro d ln comp allow target k rest logs h1
    simp only [collectLoop]
    rw [if_pos h1, if_neg (by decide : ¬ ERROR_INSUFFICIENT_BUFFER = ERROR_NO_MORE_ITEMS)]
    simp
  · intro d ln comp allow target k rest logs h1
    simp only [collectLoop]
    rw [if_pos h1]
    simp

/-- Witness for C9 at a concrete errno 5 (access denied), an
insufficient-buffer retry, and a clean end. -/
theorem c9_read_error_taxonomy_witness :
    ((0 : Nat) < 3 ∧ (5 : Nat) ≠ ERROR_NO_MORE_ITEMS ∧
      (5 : Nat) ≠ ERROR_INSUFFICIENT_BUFFER ∧
      collectLoop 0 "System" "PC" [] 3 [ReadResult.failure 5 0] [] =
        some ([], some 5)) ∧
    ((0 : Nat) < 3 ∧
      collectLoop 0 "System" "PC" [] 3
          [ReadResult.failure ERROR_INSUFFICIENT_BUFFER 8192,
           ReadResult.failure ERROR_NO_MORE_ITEMS 0] [] =
        collectLoop 0 "System" "PC" [] 3 [ReadResult.failure ERROR_NO_MORE_ITEMS 0] []) ∧
    ((0 : Nat) < 3 ∧
      collectLoop 0 "System" "PC" [] 3 [ReadResult.failure ERROR_NO_MORE_ITEMS 0] [] =
        some ([], none)) :=
  ⟨⟨by decide, by decide, by decide,
      c9_read_error_taxonomy.1 0 "System" "PC" [] 3 5 0 [] [] (by decide)
        (by decide) (by decide)⟩,
    ⟨by decide,
      c9_read_error_taxonomy.2.1 0 "System" "PC" [] 3 8192
        [ReadResult.failure ERROR_NO_MORE_ITEMS 0] [] (by decide)⟩,
    ⟨by decide,
      c9_read_error_taxonomy.2.2 0 "System" "PC" [] 3 0 [] [] (by decide)⟩⟩

/-- The unfiltered walk is exactly the filter of the per-offset decodings:
filtering is applied record by record, in buffer order. -/
theorem walkAll_eq_offsets (d : Nat) (ln comp : String) (allow : List Nat)
    (buf : List Nat) (n : Nat) :
    ∀ fuel offset,
      walkAllFuel d ln comp allow buf n fuel offset =
        Option.map
          (fun os => (os.map (buildEvent d ln comp buf)).filter (passFilter allow))
          (walkOffsets d buf n fuel offset) := by
  intro fuel
  induction fuel with
  | zero => intro offset; rfl
  | succ fuel ih =>
    intro offset
    simp only [walkAllFuel, walkOffsets]
    by_cases h1 : offset < n
    · rw [if_pos h1, if_pos h1]
      by_cases h2 : n < (offset + sizeof_EVENTLOGRECORD) % U32
      · rw [if_pos h2, if_pos h2]; rfl
      · rw [if_neg h2, if_neg h2]
        by_cases h3 : (decodeRecord d buf offset).Length < sizeof_EVENTLOGRECORD ∨
            n - offset < (decodeRecord d buf offset).Length
        · rw [if_pos h3, if_pos h3]
          by_cases h4 : n ≤ (offset + 8) % U32
          · rw [if_pos h4, if_pos h4]; rfl
          · rw [if_neg h4, if_neg h4]; exact ih _
        · rw [if_neg h3, if_neg h3]
          rw [ih]
          cases walkOffsets d buf n fuel (offset + (decodeRecord d buf offset).Length) with
          | none => rfl
          | some os =>
            simp only [Option.map_some', List.map_cons, List.filter_cons]
            by_cases hp : passFilter allow (buildEvent d ln comp buf offset) = true
            · simp [hp]
            · rw [Bool.not_eq_true] at hp
              simp [hp]
    · rw [if_neg h1, if_neg h1]; rfl

/-- C4: with a non-empty allow-list every collected entry's masked event id
is a member of the list; the filter is applied record by record before
appending (the walk is exactly the per-record filter of the per-offset
decodings); and with an empty allow-list the filter keeps everything. -/
theorem c4_allowlist_filter :
    (∀ (d : Nat) (logName localComputerName : String) (maxEvents : Int)
        (specificEventIDs : List Nat) (totalRecords : Nat)
        (reads : List ReadResult) (L : List EventLogData) (e : Option Nat),
      CollectWindowsEventLogs d logName localComputerName maxEvents
        specificEventIDs totalRecords reads = some (L, e) →
      specificEventIDs ≠ [] →
      ∀ ev ∈ L, ev.EventID ∈ specificEventIDs) ∧
    (∀ (d : Nat) (ln comp : String) (allow buf : List Nat) (n fuel offset : Nat),
      walkAllFuel d ln comp allow buf n fuel offset =
        Option.map
          (fun os => (os.map (buildEvent d ln comp buf)).filter (passFilter allow))
          (walkOffsets d buf n fuel offset)) ∧
    (∀ ev : EventLogData, passFilter [] ev = true) := by
  refine ⟨?_, ?_, ?_⟩
  · intro d ln comp maxEvents allow totalRecords reads L e h hne ev hev
    simp only [CollectWindowsEventLogs] at h
    rcases collectLoop_mem d ln comp allow _ reads [] L e h ev hev with
      hl | ⟨buf, n, o, _, _, hp⟩
    · simp at hl
    · have hcont : allow.contains ev.EventID = true := by
        simpa [passFilter, hne] using hp
      simpa using hcont
  · intro d ln comp allow buf n fuel offset
    exact walkAll_eq_offsets d ln comp allow buf n fuel offset
  · intro ev
    simp [passFilter]

set_option maxRecDepth 8000 in
/-- Witness for C4: collecting with allow-list `[100]` keeps only the
record whose masked id is 100, and its id is a member. -/
theorem c4_allowlist_filter_witness :
    CollectWindowsEventLogs 0 "System" "PC" 0 [100] 5
      [ReadResult.success bufCorrupt 168, ReadResult.failure 259 0] =
      some ([evB], none) ∧
    ([100] : List Nat) ≠ [] ∧
    (∀ ev ∈ [evB], ev.EventID ∈ [100]) ∧
    passFilter [] evB = true :=
  ⟨by decide, by decide,
    c4_allowlist_filter.1 0 "System" "PC" 0 [100] 5
      [ReadResult.success bufCorrupt 168, ReadResult.failure 259 0]
      [evB] none (by decide) (by decide),
    c4_allowlist_filter.2.2 evB⟩

/-- The capped walk is the uncapped walk truncated to the room left below
the target: the cap drops trailing records and nothing else. -/
theorem walkFuel_take (d : Nat) (ln comp : String) (allow : List Nat)
    (buf : List Nat) (n target : Nat) :
    ∀ fuel offset logs A, logs.length < target →
      walkAllFuel d ln comp allow buf n fuel offset = some A →
      walkFuel d ln comp allow buf n target fuel offset logs =
        some (logs ++ A.take (target - logs.length)) := by
  intro fuel
  induction fuel with
  | zero => intro offset logs A _ hA; simp [walkAllFuel] at hA
  | succ fuel ih =>
    intro offset logs A hlen hA
    simp only [walkAllFuel] at hA
    simp only [walkFuel]
    by_cases h1 : offset < n
    · rw [if_pos h1] at hA ⊢
      by_cases h2 : n < (offset + sizeof_EVENTLOGRECORD) % U32
      · rw [if_pos h2] at hA ⊢
        obtain rfl : ([] : List EventLogData) = A := Option.some.inj hA
        simp
      · rw [if_neg h2] at hA ⊢
        by_cases h3 : (decodeRecord d buf offset).Length < sizeof_EVENTLOGRECORD ∨
            n - offset < (decodeRecord d buf offset).Length
        · rw [if_pos h3] at hA ⊢
          by_cases h4 : n ≤ (offset + 8) % U32
          · rw [if_pos h4] at hA ⊢
            obtain rfl : ([] : List EventLogData) = A := Option.some.inj hA
            simp
          · rw [if_neg h4] at hA ⊢
            exact ih _ _ _ hlen hA
        · rw [if_neg h3] at hA ⊢
          cases hA' : walkAllFuel d ln comp allow buf n fuel
              (offset + (decodeRecord d buf offset).Length) with
          | none => rw [hA'] at hA; simp at hA
          | some A' =>
            rw [hA'] at hA
            simp only [Option.map_some'] at hA
            obtain rfl : (if passFilter allow (buildEvent d ln comp buf offset) = true
                then [buildEvent d ln comp buf offset] else []) ++ A' = A :=
              Option.some.inj hA
            by_cases hp : passFilter allow (buildEvent d ln comp buf offset) = true
            · rw [if_pos hp]
              by_cases h6 : target ≤ (logs ++ [buildEvent d ln comp buf offset]).length
              · rw [if_pos h6]
                have ht : target - logs.length = 1 := by
                  simp only [List.length_append, List.length_singleton] at h6
                  omega
                rw [if_pos hp, ht]
                simp
              · rw [if_neg h6]
                have hlen2 : (logs ++ [buildEvent d ln comp buf offset]).length < target := by
                  simp only [List.length_append, List.length_singleton] at h6 ⊢
                  omega
                rw [ih _ _ _ hlen2 hA']
                have hk : target - logs.length =
                    (target - (logs ++ [buildEvent d ln comp buf offset]).length) + 1 := by
                  simp only [List.length_append, List.length_singleton] at h6 ⊢
                  omega
                rw [if_pos hp, hk]
                simp [List.take_succ_cons, List.append_assoc]
            · rw [if_neg hp]
              have h6 : ¬ target ≤ logs.length := not_le.2 hlen
              rw [if_neg h6]
              rw [ih _ _ _ hlen hA']
              rw [if_neg hp]
              simp
    · rw [if_neg h1] at hA ⊢
      obtain rfl : ([] : List EventLogData) = A := Option.some.inj hA
      simp

/-- One read-loop step on a successful read whose walk terminates: the loop
continues on the rest of the stream with the capped walk's records
appended. -/
theorem collectLoop_success_step (d : Nat) (ln comp : String) (allow : List Nat)
    (target : Nat) (buf : List Nat) (n : Nat) (rest : List ReadResult)
    (logs A : List EventLogData) (h1 : logs.length < target)
    (hA : walkAllFuel d ln comp allow buf n (n + 1) 0 = some A) :
    collectLoop d ln comp allow target (ReadResult.success buf n :: rest) logs =
      collectLoop d ln comp allow target rest
        (logs ++ A.take (target - logs.length)) := by
  simp only [collectLoop]
  rw [if_pos h1, walkFuel_take d ln comp allow buf n target (n + 1) 0 logs A h1 hA]

/-- A read loop whose accumulator already reached the target returns it
with no error. -/
theorem collectLoop_done (d : Nat) (ln comp : String) (allow : List Nat)
    (target : Nat) (reads : List ReadResult) (logs : List EventLogData)
    (h1 : ¬ logs.length < target) :
    collectLoop d ln comp allow target reads logs = some (logs, none) := by
  cases reads with
  | nil => simp only [collectLoop]; rw [if_neg h1]
  | cons r rest =>
    cases r with
    | success buf n => simp only [collectLoop]; rw [if_neg h1]
    | failure errno k => simp only [collectLoop]; rw [if_neg h1]

/-- If the stream makes more filter-passing records available than the
target still needs, the read loop stops with exactly the target count and
no error. -/
theorem collectLoop_reach (d : Nat) (ln comp : String) (allow : List Nat)
    (target : Nat) :
    ∀ reads logs, logs.length ≤ target →
      target < logs.length + streamPassing d ln comp allow reads →
      ∃ L, collectLoop d ln comp allow target reads logs = some (L, none) ∧
        L.length = target := by
  intro reads
  induction reads with
  | nil =>
    intro logs hle hlt
    simp only [streamPassing] at hlt
    omega
  | cons r rest ih =>
    intro logs hle hlt
    cases r with
    | success buf n =>
      cases hA : walkAllFuel d ln comp allow buf n (n + 1) 0 with
      | none =>
        simp only [streamPassing, hA] at hlt
        omega
      | some A =>
        simp only [streamPassing, hA] at hlt
        by_cases h1 : logs.length < target
        · rw [collectLoop_success_step d ln comp allow target buf n rest logs A h1 hA]
          by_cases h2 : target - logs.length ≤ A.length
          · have hfull : (logs ++ A.take (target - logs.length)).length = target := by
              simp only [List.length_append, List.length_take]
              omega
            refine ⟨logs ++ A.take (target - logs.length), ?_, hfull⟩
            exact collectLoop_done d ln comp allow target rest _ (by omega)
          · have htake : A.take (target - logs.length) = A :=
              List.take_of_length_le (by omega)
            rw [htake]
            refine ih (logs ++ A) ?_ ?_
            · simp only [List.length_append]; omega
            · simp only [List.length_append]; omega
        · exact ⟨logs, collectLoop_done d ln comp allow target _ logs h1, by omega⟩
    | failure errno k =>
      simp only [streamPassing] at hlt
      by_cases h1 : logs.length < target
      · by_cases h2 : errno = ERROR_NO_MORE_ITEMS
        · subst h2
          rw [if_neg (by decide : ¬ ERROR_NO_MORE_ITEMS = ERROR_INSUFFICIENT_BUFFER)] at hlt
          omega
        · by_cases h3 : errno = ERROR_INSUFFICIENT_BUFFER
          · subst h3
            rw [if_pos rfl] at hlt
            simp only [collectLoop]
            rw [if_pos h1,
              if_neg (by decide : ¬ ERROR_INSUFFICIENT_BUFFER = ERROR_NO_MORE_ITEMS),
              if_true]
            exact ih logs hle hlt
          · rw [if_neg h3] at hlt
            omega
      · exact ⟨logs, collectLoop_done d ln comp allow target _ logs h1, by omega⟩

/-- On a clean stream whose available records do not exceed the target, the
read loop collects every available record and ends without error. -/
theorem collectLoop_all (d : Nat) (ln comp : String) (allow : List Nat)
    (target : Nat) :
    ∀ reads logs, cleanStream d ln comp allow reads = true →
      logs.length + streamPassing d ln comp allow reads ≤ target →
      ∃ L, collectLoop d ln comp allow target reads logs = some (L, none) ∧
        L.length = logs.length + streamPassing d ln comp allow reads := by
  intro reads
  induction reads with
  | nil => intro logs hclean _; simp [cleanStream] at hclean
  | cons r rest ih =>
    intro logs hclean hle
    cases r with
    | success buf n =>
      simp only [cleanStream, Bool.and_eq_true] at hclean
      obtain ⟨hsome, hrest⟩ := hclean
      cases hA : walkAllFuel d ln comp allow buf n (n + 1) 0 with
      | none => rw [hA] at hsome; simp at hsome
      | some A =>
        simp only [streamPassing, hA] at hle ⊢
        by_cases h1 : logs.length < target
        · rw [collectLoop_success_step d ln comp allow target buf n rest logs A h1 hA]
          have htake : A.take (target - logs.length) = A :=
            List.take_of_length_le (by omega)
          rw [htake]
          obtain ⟨L, hL, hlen⟩ := ih (logs ++ A) hrest
            (by simp only [List.length_append]; omega)
          refine ⟨L, hL, ?_⟩
          simp only [List.length_append] at hlen
          omega
        · refine ⟨logs, collectLoop_done d ln comp allow target _ logs h1, ?_⟩
          omega
    | failure errno k =>
      simp only [cleanStream, Bool.or_eq_true, Bool.and_eq_true, beq_iff_eq] at hclean
      simp only [streamPassing] at hle ⊢
      by_cases h1 : logs.length < target
      · rcases hclean with h259 | ⟨h122, hrest⟩
        · subst h259
          rw [if_neg (by decide : ¬ ERROR_NO_MORE_ITEMS = ERROR_INSUFFICIENT_BUFFER)] at hle
          simp only [collectLoop]
          rw [if_pos h1, if_true]
          refine ⟨logs, rfl, ?_⟩
          rw [if_neg (by decide : ¬ ERROR_NO_MORE_ITEMS = ERROR_INSUFFICIENT_BUFFER)]
          omega
        · subst h122
          rw [if_pos rfl] at hle
          simp only [collectLoop]
          rw [if_pos h1,
            if_neg (by decide : ¬ ERROR_INSUFFICIENT_BUFFER = ERROR_NO_MORE_ITEMS),
            if_true]
          rw [if_true]
          exact ih logs hrest hle
      · refine ⟨logs, collectLoop_done d ln comp allow target _ logs h1, ?_⟩
        by_cases h122 : errno = ERROR_INSUFFICIENT_BUFFER
        · rw [if_pos h122] at hle ⊢
          omega
        · rw [if_neg h122] at hle ⊢
          omega

/-- C3: with `maxEvents > 0` and more filter-passing records available than
`maxEvents` (the OS-reported total being at least the available count, hence
also above `maxEvents`), the collection returns exactly `maxEvents` records;
with `maxEvents ≤ 0` the cap is off and a cleanly terminating stream yields
every available record. -/
theorem c3_maxEvents_cap :
    (∀ (d : Nat) (ln comp : String) (maxEvents : Int) (allow : List Nat)
        (totalRecords : Nat) (reads : List ReadResult),
      0 < maxEvents →
      maxEvents < (totalRecords : Int) →
      maxEvents.toNat < streamPassing d ln comp allow reads →
      ∃ L, CollectWindowsEventLogs d ln comp maxEvents allow totalRecords reads =
          some (L, none) ∧ L.length = maxEvents.toNat) ∧
    (∀ (d : Nat) (ln comp : String) (maxEvents : Int) (allow : List Nat)
        (totalRecords : Nat) (reads : List ReadResult),
      maxEvents ≤ 0 →
      cleanStream d ln comp allow reads = true →
      streamPassing d ln comp allow reads ≤ totalRecords →
      ∃ L, CollectWindowsEventLogs d ln comp maxEvents allow totalRecords reads =
          some (L, none) ∧
        L.length = streamPassing d ln comp allow reads) := by
  constructor
  · intro d ln comp maxEvents allow totalRecords reads h0 hcap hav
    simp only [CollectWindowsEventLogs]
    rw [if_pos ⟨h0, hcap⟩]
    exact collectLoop_reach d ln comp allow maxEvents.toNat reads []
      (by simp) (by simpa using hav)
  · intro d ln comp maxEvents allow totalRecords reads h0 hclean hav
    simp only [CollectWindowsEventLogs]
    rw [if_neg (by intro hc; exact absurd h0 (not_le.2 hc.1))]
    obtain ⟨L, hL, hlen⟩ := collectLoop_all d ln comp allow totalRecords reads []
      hclean (by simpa using hav)
    exact ⟨L, hL, by simpa using hlen⟩

set_option maxRecDepth 8000 in
/-- Witness for C3: the corrupt-plus-two-records stream has two passing
records; `maxEvents = 1` caps the result at one record, `maxEvents = 0`
collects both. -/
theorem c3_maxEvents_cap_witness :
    ((0 : Int) < 1 ∧ (1 : Int) < ((5 : Nat) : Int) ∧
      (1 : Int).toNat < streamPassing 0 "System" "PC" []
        [ReadResult.success bufCorrupt 168, ReadResult.failure 259 0] ∧
      ∃ L, CollectWindowsEventLogs 0 "System" "PC" 1 [] 5
          [ReadResult.success bufCorrupt 168, ReadResult.failure 259 0] =
          some (L, none) ∧ L.length = (1 : Int).toNat) ∧
    ((0 : Int) ≤ 0 ∧
      cleanStream 0 "System" "PC" []
        [ReadResult.success bufCorrupt 168, ReadResult.failure 259 0] = true ∧
      streamPassing 0 "System" "PC" []
        [ReadResult.success bufCorrupt 168, ReadResult.failure 259 0] ≤ 5 ∧
      ∃ L, CollectWindowsEventLogs 0 "System" "PC" 0 [] 5
          [ReadResult.success bufCorrupt 168, ReadResult.failure 259 0] =
          some (L, none) ∧
        L.length = streamPassing 0 "System" "PC" []
          [ReadResult.success bufCorrupt 168, ReadResult.failure 259 0]) :=
  ⟨⟨by decide, by decide, by decide,
      c3_maxEvents_cap.1 0 "System" "PC" 1 [] 5
        [ReadResult.success bufCorrupt 168, ReadResult.failure 259 0]
        (by decide) (by decide) (by decide)⟩,
    ⟨by decide, by decide, by decide,
      c3_maxEvents_cap.2 0 "System" "PC" 0 [] 5
        [ReadResult.success bufCorrupt 168, ReadResult.failure 259 0]
        (by decide) (by decide) (by decide)⟩⟩

/-- C5: the timestamp translator's fixed 365-day-year / 30-day-month
arithmetic maps epoch second 1700000000 to "2023-12-01 22:13:20", not to the
true calendar value 2023-11-14 22:13:20 UTC required by the claim. -/
theorem c5_timestamp_divergence :
    WindowsTimeToTime 1700000000 = "2023-12-01 22:13:20" ∧
    ("2023-12-01 22:13:20" : String) ≠ "2023-11-14 22:13:20" := by
  exact ⟨by decide, by decide⟩

/-- A record whose header bytes 32-35 (`ClosingRecordNumber`) spell the
UTF-16 text "XY" while the bytes immediately after the 56-byte header spell
the null-terminated UTF-16 text "AB". -/
def bufC7 : List Nat :=
  List.replicate 32 0 ++ [88, 0, 89, 0] ++ List.replicate 20 0 ++ [65, 0, 66, 0, 0, 0]

/-- C7: the source-name resolver scans from byte `offset + 8*4 = offset + 32`
(inside the fixed header), not from `offset + 56`: on `bufC7` it returns the
header text "XY" although the text after the header is "AB". -/
theorem c7_source_scan_offset :
    GetSourceFromEvent 0 "CustomLog" bufC7 0 = "XY" ∧
    utf16ToString (readUnits 0 bufC7 sizeof_EVENTLOGRECORD 2) = "AB" ∧
    ("XY" : String) ≠ "AB" := by
  exact ⟨by decide, by decide, by decide⟩

/-- C8 counterexample: the channel name "OpenSSH/Operational" contains a
'/'-delimited path with first segment "OpenSSH", yet when no source name
decodes the resolver returns the sentinel "EventLog", not the first
segment — the split is applied only to "Microsoft-Windows-" channels. -/
theorem c8_counterexample :
    GetSourceFromEvent 0 "OpenSSH/Operational" [] 0 = "EventLog" ∧
    '/' ∈ ("OpenSSH/Operational").data ∧
    (goSplitSlash "OpenSSH/Operational").headD "" = "OpenSSH" ∧
    ("EventLog" : String) ≠ "OpenSSH" := by
  exact ⟨by decide, by decide, by decide, by decide⟩

/-- C8 (amended): when no non-empty source name decodes from the buffer, the
resolver returns the channel name verbatim for the three classic channels;
otherwise, for channel names starting with "Microsoft-Windows-" it returns
the first '/'-segment; for every other channel name (even one containing
'/') it returns the sentinel "EventLog". -/
theorem c8_source_fallback_amended (d : Nat) (logName : String) (buf : List Nat)
    (offset : Nat)
    (hfail :
      (scanSourceEnd d buf ((offset + 8 * 4) % U32) ((offset + 8 * 4) % U32) -
          (offset + 8 * 4) % U32) / 2 = 0 ∨
      1024 ≤ (scanSourceEnd d buf ((offset + 8 * 4) % U32) ((offset + 8 * 4) % U32) -
          (offset + 8 * 4) % U32) / 2 ∨
      utf16ToString (readUnits d buf ((offset + 8 * 4) % U32)
        ((scanSourceEnd d buf ((offset + 8 * 4) % U32) ((offset + 8 * 4) % U32) -
          (offset + 8 * 4) % U32) / 2)) = "") :
    ((logName = "System" ∨ logName = "Application" ∨ logName = "Security") →
      GetSourceFromEvent d logName buf offset = logName) ∧
    (¬ (logName = "System" ∨ logName = "Application" ∨ logName = "Security") →
      goHasPrefix logName "Microsoft-Windows-" = true →
      GetSourceFromEvent d logName buf offset = (goSplitSlash logName).headD "EventLog") ∧
    (¬ (logName = "System" ∨ logName = "Application" ∨ logName = "Security") →
      goHasPrefix logName "Microsoft-Windows-" = false →
      GetSourceFromEvent d logName buf offset = "EventLog") := by
  have hG : GetSourceFromEvent d logName buf offset = sourceFallback logName := by
    simp only [GetSourceFromEvent]
    by_cases hc : 0 < (scanSourceEnd d buf ((offset + 8 * 4) % U32) ((offset + 8 * 4) % U32) -
        (offset + 8 * 4) % U32) / 2 ∧
        (scanSourceEnd d buf ((offset + 8 * 4) % U32) ((offset + 8 * 4) % U32) -
          (offset + 8 * 4) % U32) / 2 < 1024
    · rw [if_pos hc]
      have hemp : utf16ToString (readUnits d buf ((offset + 8 * 4) % U32)
          ((scanSourceEnd d buf ((offset + 8 * 4) % U32) ((offset + 8 * 4) % U32) -
            (offset + 8 * 4) % U32) / 2)) = "" := by
        rcases hfail with h | h | h
        · exact absurd h (by omega)
        · exact absurd h (by omega)
        · exact h
      rw [hemp]
      simp
    · rw [if_neg hc]
  refine ⟨?_, ?_, ?_⟩
  · intro hcl
    rw [hG, sourceFallback, if_pos hcl]
  · intro hncl hmw
    rw [hG, sourceFallback, if_neg hncl, if_pos hmw]
  · intro hncl hnmw
    rw [hG, sourceFallback, if_neg hncl, if_neg (by simp [hnmw])]

set_option maxRecDepth 2000 in
/-- Witness for the amended C8 at the three fallback shapes, on an empty
buffer (so no source name decodes). -/
theorem c8_source_fallback_amended_witness :
    ((scanSourceEnd 0 [] ((0 + 8 * 4) % U32) ((0 + 8 * 4) % U32) -
        (0 + 8 * 4) % U32) / 2 = 0 ∨
      1024 ≤ (scanSourceEnd 0 [] ((0 + 8 * 4) % U32) ((0 + 8 * 4) % U32) -
        (0 + 8 * 4) % U32) / 2 ∨
      utf16ToString (readUnits 0 [] ((0 + 8 * 4) % U32)
        ((scanSourceEnd 0 [] ((0 + 8 * 4) % U32) ((0 + 8 * 4) % U32) -
          (0 + 8 * 4) % U32) / 2)) = "") ∧
    GetSourceFromEvent 0 "Security" [] 0 = "Security" ∧
    GetSourceFromEvent 0 "Microsoft-Windows-Sysmon/Operational" [] 0 =
      (goSplitSlash "Microsoft-Windows-Sysmon/Operational").headD "EventLog" ∧
    GetSourceFromEvent 0 "CustomLog" [] 0 = "EventLog" :=
  ⟨Or.inl (by decide),
    (c8_source_fallback_amended 0 "Security" [] 0 (Or.inl (by decide))).1
      (Or.inr (Or.inr rfl)),
    ((c8_source_fallback_amended 0 "Microsoft-Windows-Sysmon/Operational" [] 0
        (Or.inl (by decide))).2.1 (by decide) (by decide)),
    ((c8_source_fallback_amended 0 "CustomLog" [] 0
        (Or.inl (by decide))).2.2 (by decide) (by decide))⟩

/-- In-range byte reads do not depend on the out-of-range default. -/
theorem byteAt_indep (d1 d2 : Nat) (buf : List Nat) (i : Nat)
    (h : i < buf.length) : byteAt d1 buf i = byteAt d2 buf i := by
  unfold byteAt
  rw [List.getD_eq_getElem _ _ h, List.getD_eq_getElem _ _ h]

/-- In-range 16-bit reads do not depend on the out-of-range default. -/
theorem readU16_indep (d1 d2 : Nat) (buf : List Nat) (i : Nat)
    (h : i + 1 < buf.length) : readU16 d1 buf i = readU16 d2 buf i := by
  unfold readU16
  rw [byteAt_indep d1 d2 buf i (by omega), byteAt_indep d1 d2 buf (i + 1) h]

/-- The bounded string scan never reads outside the buffer: its result does
not depend on the out-of-range default. -/
theorem stringScanEndAux_indep (d1 d2 : Nat) (buf : List Nat) (s : Nat) :
    ∀ k e, stringScanEndAux d1 buf s k e = stringScanEndAux d2 buf s k e := by
  intro k
  induction k with
  | zero => intro e; rfl
  | succ k ih =>
    intro e
    simp only [stringScanEndAux]
    by_cases hb : e + 1 < buf.length
    · rw [byteAt_indep d1 d2 buf e (by omega), byteAt_indep d1 d2 buf (e + 1) hb]
      by_cases hcond : e + 1 < buf.length ∧
          (byteAt d2 buf e ≠ 0 ∨ byteAt d2 buf (e + 1) ≠ 0)
      · rw [if_pos hcond, if_pos hcond]
        by_cases hcap : 32768 < e + 2 - s
        · rw [if_pos hcap, if_pos hcap]
        · rw [if_neg hcap, if_neg hcap]
          exact ih (e + 2)
      · rw [if_neg hcond, if_neg hcond]
    · rw [if_neg (fun hc => hb hc.1), if_neg (fun hc : _ ∧ _ => hb hc.1)]

/-- The scan cursor never leaves the buffer. -/
theorem stringScanEndAux_le (d : Nat) (buf : List Nat) (s : Nat) :
    ∀ k e, e ≤ buf.length → stringScanEndAux d buf s k e ≤ buf.length := by
  intro k
  induction k with
  | zero => intro e he; exact he
  | succ k ih =>
    intro e he
    simp only [stringScanEndAux]
    by_cases hcond : e + 1 < buf.length ∧
        (byteAt d buf e ≠ 0 ∨ byteAt d buf (e + 1) ≠ 0)
    · rw [if_pos hcond]
      by_cases hcap : 32768 < e + 2 - s
      · rw [if_pos hcap]; omega
      · rw [if_neg hcap]; exact ih (e + 2) (by omega)
    · rw [if_neg hcond]; exact he

/-- The scan cursor never moves backwards. -/
theorem stringScanEndAux_ge (d : Nat) (buf : List Nat) (s : Nat) :
    ∀ k e, e ≤ stringScanEndAux d buf s k e := by
  intro k
  induction k with
  | zero => intro e; exact Nat.le_refl e
  | succ k ih =>
    intro e
    simp only [stringScanEndAux]
    by_cases hcond : e + 1 < buf.length ∧
        (byteAt d buf e ≠ 0 ∨ byteAt d buf (e + 1) ≠ 0)
    · rw [if_pos hcond]
      by_cases hcap : 32768 < e + 2 - s
      · rw [if_pos hcap]; omega
      · rw [if_neg hcap]
        have := ih (e + 2)
        omega
    · rw [if_neg hcond]

/-- In-range unit lists do not depend on the out-of-range default. -/
theorem readUnits_indep (d1 d2 : Nat) (buf : List Nat) :
    ∀ k start, start + 2 * k ≤ buf.length →
      readUnits d1 buf start k = readUnits d2 buf start k := by
  intro k
  induction k with
  | zero => intro start _; rfl
  | succ k ih =>
    intro start h
    simp only [readUnits]
    rw [readU16_indep d1 d2 buf start (by omega), ih (start + 2) (by omega)]

/-- The string-list extractor never reads outside the buffer: its result
does not depend on the out-of-range default. -/
theorem extractStringsAux_indep (d1 d2 : Nat) (buf : List Nat) :
    ∀ i ptr, extractStringsAux d1 buf i ptr = extractStringsAux d2 buf i ptr := by
  intro i
  induction i with
  | zero => intro ptr; rfl
  | succ i ih =>
    intro ptr
    simp only [extractStringsAux]
    by_cases hp : buf.length ≤ ptr
    · rw [if_pos hp, if_pos hp]
    · rw [if_neg hp, if_neg hp]
      have hscan : stringScanEnd d1 buf ptr ptr = stringScanEnd d2 buf ptr ptr :=
        stringScanEndAux_indep d1 d2 buf ptr _ ptr
      rw [hscan]
      have hle : stringScanEnd d2 buf ptr ptr ≤ buf.length :=
        stringScanEndAux_le d2 buf ptr _ ptr (by omega)
      have hge : ptr ≤ stringScanEnd d2 buf ptr ptr :=
        stringScanEndAux_ge d2 buf ptr _ ptr
      rw [readUnits_indep d1 d2 buf ((stringScanEnd d2 buf ptr ptr - ptr) / 2) ptr
        (by omega)]
      by_cases htail : buf.length ≤ stringScanEnd d2 buf ptr ptr + 2
      · rw [if_pos htail, if_pos htail]
      · rw [if_neg htail, if_neg htail, ih (stringScanEnd d2 buf ptr ptr + 2)]

/-- The scan stops immediately on a NUL unit. -/
theorem stringScanEndAux_stop (d : Nat) (buf : List Nat) (s : Nat) (k e : Nat)
    (h0 : byteAt d buf e = 0) (h1 : byteAt d buf (e + 1) = 0) :
    stringScanEndAux d buf s k e = e := by
  cases k with
  | zero => rfl
  | succ k =>
    simp only [stringScanEndAux]
    rw [if_neg]
    intro hc
    rcases hc.2 with h | h
    · exact h h0
    · exact h h1

/-- If no NUL unit occurs in the full capped window, the scan runs to the
cap and stops at `start + 32770`. -/
theorem stringScanEndAux_cap (d : Nat) (buf : List Nat) (ptr : Nat)
    (hlen : ptr + 32769 < buf.length)
    (hnz : ∀ j, j ≤ 16384 →
      byteAt d buf (ptr + 2 * j) ≠ 0 ∨ byteAt d buf (ptr + 2 * j + 1) ≠ 0) :
    ∀ k j, 16385 - j ≤ k → j ≤ 16384 →
      stringScanEndAux d buf ptr k (ptr + 2 * j) = ptr + 32770 := by
  intro k
  induction k with
  | zero => intro j h1 h2; omega
  | succ k ih =>
    intro j h1 h2
    simp only [stringScanEndAux]
    rw [if_pos ⟨by omega, hnz j h2⟩]
    by_cases hj : j = 16384
    · subst hj
      rw [if_pos (by omega)]
    · rw [if_neg (by omega)]
      have heq : ptr + 2 * j + 2 = ptr + 2 * (j + 1) := by omega
      rw [heq]
      exact ih (j + 1) (by omega) (by omega)

/-- Reading inside a constant buffer yields the constant. -/
theorem byteAt_replicate (n a d i : Nat) (h : i < n) :
    byteAt d (List.replicate n a) i = a := by
  unfold byteAt
  rw [List.getD_eq_getElem _ _ (by simpa using h)]
  simp

/-- A string with no NUL unit in its full capped window decodes to 16385
units, fails the `< 16384` guard and is dropped, while extraction continues
at the next cursor (no-wrap rendering). -/
theorem extractStringsAux_cap_skip (d : Nat) (buf : List Nat) (ptr i : Nat)
    (hlen : ptr + 32769 < buf.length)
    (hnz : ∀ j, j ≤ 16384 →
      byteAt d buf (ptr + 2 * j) ≠ 0 ∨ byteAt d buf (ptr + 2 * j + 1) ≠ 0) :
    extractStringsAux d buf (i + 1) ptr =
      if buf.length ≤ ptr + 32772 then []
      else extractStringsAux d buf i (ptr + 32772) := by
  simp only [extractStringsAux]
  rw [if_neg (by omega : ¬ buf.length ≤ ptr)]
  have hscan : stringScanEnd d buf ptr ptr = ptr + 32770 := by
    have h0 := stringScanEndAux_cap d buf ptr hlen hnz 16385 0 (by omega) (by omega)
    simpa using h0
  rw [hscan]
  have hstr : (ptr + 32770 - ptr) / 2 = 16385 := by omega
  rw [hstr]
  rw [if_neg (by omega : ¬ (0 < 16385 ∧ 16385 < 16384))]
  have h2 : ptr + 32770 + 2 = ptr + 32772 := by omega
  rw [h2]
  by_cases htail : buf.length ≤ ptr + 32772
  · rw [if_pos htail, if_pos htail]
  · rw [if_neg htail, if_neg htail]
    simp

/-- An empty string (NUL unit at the cursor) is skipped while extraction
continues at the next cursor (no-wrap rendering). -/
theorem extractStringsAux_empty_skip (d : Nat) (buf : List Nat) (ptr i : Nat)
    (hlt : ptr < buf.length)
    (h0 : byteAt d buf ptr = 0) (h1 : byteAt d buf (ptr + 1) = 0) :
    extractStringsAux d buf (i + 1) ptr =
      if buf.length ≤ ptr + 2 then []
      else extractStringsAux d buf i (ptr + 2) := by
  simp only [extractStringsAux]
  rw [if_neg (by omega : ¬ buf.length ≤ ptr)]
  have hscan : stringScanEnd d buf ptr ptr = ptr :=
    stringScanEndAux_stop d buf ptr _ ptr h0 h1
  rw [hscan]
  have hstr : (ptr - ptr) / 2 = 0 := by omega
  rw [hstr]
  rw [if_neg (by omega : ¬ (0 < 0 ∧ 0 < 16384))]
  by_cases htail : buf.length ≤ ptr + 2
  · rw [if_pos htail, if_pos htail]
  · rw [if_neg htail, if_neg htail]
    simp

/-- Go `uint32` subtraction agrees with `Nat` subtraction when it cannot
wrap. -/
theorem u32sub_eq (a b : Nat) (hba : b ≤ a) (ha : a < U32) :
    u32sub a b = a - b := by
  simp only [u32sub, U32] at *
  omega

/-- On a buffer short enough that the `uint32` cursor sums cannot wrap
(`buf.length + 3 ≤ 2^32`) and a cursor below `2^32 - 1`, the faithful
per-string scan never panics and equals the no-wrap rendering. -/
theorem stringScanEndAux_agrees (d : Nat) (buf : List Nat) (start : Nat)
    (hlen : buf.length + 3 ≤ U32) :
    ∀ k e, start ≤ e → e + 2 ≤ U32 →
      stringScanEndAuxU32 d buf start k e =
        some (stringScanEndAux d buf start k e) := by
  have hU : U32 = 4294967296 := rfl
  intro k
  induction k with
  | zero => intro e _ _; rfl
  | succ k ih =>
    intro e hse he2
    simp only [stringScanEndAuxU32, stringScanEndAux]
    have hm1 : (e + 1) % U32 = e + 1 := Nat.mod_eq_of_lt (by omega)
    rw [hm1]
    by_cases hg : e + 1 < buf.length
    · rw [if_pos hg]
      rw [if_neg (by omega : ¬ buf.length ≤ e)]
      have hm2 : (e + 2) % U32 = e + 2 := Nat.mod_eq_of_lt (by omega)
      rw [hm2]
      by_cases hb : byteAt d buf e ≠ 0 ∨ byteAt d buf (e + 1) ≠ 0
      · rw [if_pos hb, if_pos (⟨hg, hb⟩ : _ ∧ _)]
        rw [u32sub_eq (e + 2) start (by omega) (by omega)]
        by_cases hcap : 32768 < e + 2 - start
        · rw [if_pos hcap, if_pos hcap]
        · rw [if_neg hcap, if_neg hcap]
          exact ih (e + 2) (by omega) (by omega)
      · rw [if_neg hb, if_neg (fun hc : _ ∧ _ => hb hc.2)]
    · rw [if_neg hg, if_neg (fun hc : _ ∧ _ => hg hc.1)]

/-- Same agreement for the source-name scan of `GetSourceFromEvent` (cap
1024 bytes). -/
theorem scanSourceEndAux_agrees (d : Nat) (buf : List Nat) (start : Nat)
    (hlen : buf.length + 3 ≤ U32) :
    ∀ k e, start ≤ e → e + 2 ≤ U32 →
      scanSourceEndAuxU32 d buf start k e =
        some (scanSourceEndAux d buf start k e) := by
  have hU : U32 = 4294967296 := rfl
  intro k
  induction k with
  | zero => intro e _ _; rfl
  | succ k ih =>
    intro e hse he2
    simp only [scanSourceEndAuxU32, scanSourceEndAux]
    have hm1 : (e + 1) % U32 = e + 1 := Nat.mod_eq_of_lt (by omega)
    rw [hm1]
    by_cases hg : e + 1 < buf.length
    · rw [if_pos hg]
      rw [if_neg (by omega : ¬ buf.length ≤ e)]
      have hm2 : (e + 2) % U32 = e + 2 := Nat.mod_eq_of_lt (by omega)
      rw [hm2]
      by_cases hb : byteAt d buf e ≠ 0 ∨ byteAt d buf (e + 1) ≠ 0
      · rw [if_pos hb, if_pos (⟨hg, hb⟩ : _ ∧ _)]
        rw [u32sub_eq (e + 2) start (by omega) (by omega)]
        by_cases hcap : 1024 < e + 2 - start
        · rw [if_pos hcap, if_pos hcap]
        · rw [if_neg hcap, if_neg hcap]
          exact ih (e + 2) (by omega) (by omega)
      · rw [if_neg hb, if_neg (fun hc : _ ∧ _ => hb hc.2)]
    · rw [if_neg hg, if_neg (fun hc : _ ∧ _ => hg hc.1)]

/-- On a buffer short enough that the `uint32` cursor sums cannot wrap, the
faithful string extractor never panics and equals the no-wrap rendering. -/
theorem extractStringsAux_agrees (d : Nat) (buf : List Nat)
    (hlen : buf.length + 3 ≤ U32) :
    ∀ i ptr, extractStringsAuxU32 d buf i ptr =
      some (extractStringsAux d buf i ptr) := by
  have hU : U32 = 4294967296 := rfl
  intro i
  induction i with
  | zero => intro ptr; rfl
  | succ i ih =>
    intro ptr
    simp only [extractStringsAuxU32, extractStringsAux]
    by_cases hp : buf.length ≤ ptr
    · rw [if_pos hp, if_pos hp]
    · rw [if_neg hp, if_neg hp]
      have hscan : stringScanEndU32 d buf ptr ptr =
          some (stringScanEnd d buf ptr ptr) :=
        stringScanEndAux_agrees d buf ptr hlen 16385 ptr (Nat.le_refl ptr) (by omega)
      simp only [hscan]
      have hge : ptr ≤ stringScanEnd d buf ptr ptr :=
        stringScanEndAux_ge d buf ptr _ ptr
      have hle : stringScanEnd d buf ptr ptr ≤ buf.length :=
        stringScanEndAux_le d buf ptr _ ptr (by omega)
      rw [u32sub_eq (stringScanEnd d buf ptr ptr) ptr hge (by omega)]
      have hm2 : (stringScanEnd d buf ptr ptr + 2) % U32 =
          stringScanEnd d buf ptr ptr + 2 := Nat.mod_eq_of_lt (by omega)
      rw [hm2]
      by_cases htail : buf.length ≤ stringScanEnd d buf ptr ptr + 2
      · rw [if_pos htail, if_pos htail]
      · rw [if_neg htail, if_neg htail]
        simp only [ih (stringScanEnd d buf ptr ptr + 2)]

/-- One unfolding step of the faithful per-string scan. -/
theorem stringScanEndAuxU32_step (d : Nat) (buf : List Nat) (start k e : Nat) :
    stringScanEndAuxU32 d buf start (k + 1) e =
      if (e + 1) % U32 < buf.length then
        if buf.length ≤ e then none
        else if byteAt d buf e ≠ 0 ∨ byteAt d buf ((e + 1) % U32) ≠ 0 then
          if 32768 < u32sub ((e + 2) % U32) start then some ((e + 2) % U32)
          else stringScanEndAuxU32 d buf start k ((e + 2) % U32)
        else some e
      else some e := rfl

/-- One unfolding step of the faithful string extractor. -/
theorem extractStringsAuxU32_step (d : Nat) (buf : List Nat) (i ptr : Nat) :
    extractStringsAuxU32 d buf (i + 1) ptr =
      if buf.length ≤ ptr then some []
      else
        match stringScanEndU32 d buf ptr ptr with
        | none => none
        | some e =>
          let strLen := u32sub e ptr / 2
          let cur := if 0 < strLen ∧ strLen < 16384 then
                       [utf16ToString (readUnits d buf ptr strLen)]
                     else []
          if buf.length ≤ (e + 2) % U32 then some cur
          else
            match extractStringsAuxU32 d buf i ((e + 2) % U32) with
            | none => none
            | some rest => some (cur ++ rest) := rfl

/-- C6 counterexample: on the maximal buffer the API allows (`2^32 - 1`
bytes, here all `0x01`), one declared string at the odd cursor `2^32 - 3`
drives the scan to `strEnd = 2^32 - 1`, where the `uint32` guard
`strEnd+1 < len` wraps to `0 < len` and the checked access
`buffer[2^32 - 1]` is out of range: the extractor panics (`none`) instead
of excluding the string or stopping cleanly — refuting the claim's
unconditional "never causes a read outside the buffer" and "stops early
without erroring". -/
theorem c6_counterexample :
    extractStringsAuxU32 0 (List.replicate 4294967295 1) 1 4294967293 = none := by
  have hlen : (List.replicate (4294967295 : Nat) (1 : Nat)).length = 4294967295 :=
    List.length_replicate _ _
  have hb3 : byteAt 0 (List.replicate 4294967295 1) 4294967293 = 1 :=
    byteAt_replicate _ _ _ _ (by norm_num)
  have hc : ((4294967293 : Nat) + 2) % U32 = 4294967295 := by decide
  have hscan : stringScanEndU32 0 (List.replicate 4294967295 1) 4294967293
      4294967293 = none := by
    show stringScanEndAuxU32 0 (List.replicate 4294967295 1) 4294967293
      (16384 + 1) 4294967293 = none
    rw [stringScanEndAuxU32_step, hlen]
    rw [if_pos (by decide : ((4294967293 : Nat) + 1) % U32 < 4294967295)]
    rw [if_neg (by norm_num : ¬ (4294967295 : Nat) ≤ 4294967293)]
    rw [if_pos (Or.inl (by rw [hb3]; norm_num))]
    rw [if_neg (by decide :
      ¬ 32768 < u32sub (((4294967293 : Nat) + 2) % U32) 4294967293)]
    rw [hc]
    show stringScanEndAuxU32 0 (List.replicate 4294967295 1) 4294967293
      (16383 + 1) 4294967295 = none
    rw [stringScanEndAuxU32_step, hlen]
    rw [if_pos (by decide : ((4294967295 : Nat) + 1) % U32 < 4294967295)]
    rw [if_pos (by norm_num : (4294967295 : Nat) ≤ 4294967295)]
  show extractStringsAuxU32 0 (List.replicate 4294967295 1) (0 + 1) 4294967293 = none
  rw [extractStringsAuxU32_step, hlen]
  rw [if_neg (by norm_num : ¬ (4294967295 : Nat) ≤ 4294967293)]
  simp only [hscan]

/-- C6 (amended): for every buffer of length at most `2^32 - 3` — so the
`uint32` scan-cursor sums `strEnd+1` and `strEnd+2` cannot wrap (the Go
loops panic at `buffer[2^32-1]` or restart extraction at index 0 on the two
longer lengths, see `c6_counterexample`) — the string-list extractor never
reads outside the buffer: it never panics (its result equals the no-wrap
rendering) and is independent of what out-of-range memory would hold; a
string with no NUL unit in its full capped scan window decodes to 16385
units and is excluded while extraction continues; an empty string is
skipped while extraction continues; and — for every buffer — extraction
stops, without erroring, once the cursor leaves the buffer, and whether the
surrounding record is kept never depends on its extracted strings. -/
theorem c6_bounded_string_extraction :
    (∀ (d : Nat) (buf : List Nat), buf.length + 3 ≤ U32 → ∀ i ptr,
      extractStringsAuxU32 d buf i ptr = some (extractStringsAux d buf i ptr)) ∧
    (∀ (d1 d2 : Nat) (buf : List Nat), buf.length + 3 ≤ U32 → ∀ i ptr,
      extractStringsAuxU32 d1 buf i ptr = extractStringsAuxU32 d2 buf i ptr) ∧
    (∀ (d : Nat) (buf : List Nat) (ptr i : Nat), buf.length + 3 ≤ U32 →
      ptr + 32769 < buf.length →
      (∀ j, j ≤ 16384 →
        byteAt d buf (ptr + 2 * j) ≠ 0 ∨ byteAt d buf (ptr + 2 * j + 1) ≠ 0) →
      extractStringsAuxU32 d buf (i + 1) ptr =
        if buf.length ≤ ptr + 32772 then some []
        else extractStringsAuxU32 d buf i (ptr + 32772)) ∧
    (∀ (d : Nat) (buf : List Nat) (ptr i : Nat), buf.length + 3 ≤ U32 →
      ptr < buf.length → byteAt d buf ptr = 0 → byteAt d buf (ptr + 1) = 0 →
      extractStringsAuxU32 d buf (i + 1) ptr =
        if buf.length ≤ ptr + 2 then some []
        else extractStringsAuxU32 d buf i (ptr + 2)) ∧
    (∀ (d : Nat) (buf : List Nat) (ptr i : Nat),
      buf.length ≤ ptr → extractStringsAuxU32 d buf (i + 1) ptr = some []) ∧
    (∀ (allow : List Nat) (ev : EventLogData) (ss : List String),
      passFilter allow { ev with Strings := ss } = passFilter allow ev) := by
  refine ⟨extractStringsAux_agrees, ?_, ?_, ?_, ?_, ?_⟩
  · intro d1 d2 buf hU32 i ptr
    rw [extractStringsAux_agrees d1 buf hU32, extractStringsAux_agrees d2 buf hU32,
      extractStringsAux_indep d1 d2]
  · intro d buf ptr i hU32 hlen hnz
    rw [extractStringsAux_agrees d buf hU32,
      extractStringsAux_cap_skip d buf ptr i hlen hnz]
    by_cases htail : buf.length ≤ ptr + 32772
    · rw [if_pos htail, if_pos htail]
    · rw [if_neg htail, if_neg htail]
      exact (extractStringsAux_agrees d buf hU32 i (ptr + 32772)).symm
  · intro d buf ptr i hU32 hlt h0 h1
    rw [extractStringsAux_agrees d buf hU32,
      extractStringsAux_empty_skip d buf ptr i hlt h0 h1]
    by_cases htail : buf.length ≤ ptr + 2
    · rw [if_pos htail, if_pos htail]
    · rw [if_neg htail, if_neg htail]
      exact (extractStringsAux_agrees d buf hU32 i (ptr + 2)).symm
  · intro d buf ptr i hge
    simp only [extractStringsAuxU32]
    rw [if_pos hge]
  · intro allow ev ss
    rfl

/-- Witness for the amended C6: agreement and default-independence on a
small buffer, the cap-skip on a 33000-byte NUL-free buffer, the empty-skip
and the cursor-exit stop on tiny buffers. -/
theorem c6_bounded_string_extraction_witness :
    (([0, 0, 65] : List Nat).length + 3 ≤ U32 ∧
      extractStringsAuxU32 0 [0, 0, 65] 2 0 =
        some (extractStringsAux 0 [0, 0, 65] 2 0) ∧
      extractStringsAuxU32 1 [0, 0, 65] 2 0 = extractStringsAuxU32 7 [0, 0, 65] 2 0) ∧
    ((List.replicate 33000 1).length + 3 ≤ U32 ∧
      (0 : Nat) + 32769 < (List.replicate 33000 1).length ∧
      (∀ j, j ≤ 16384 →
        byteAt 0 (List.replicate 33000 1) (0 + 2 * j) ≠ 0 ∨
        byteAt 0 (List.replicate 33000 1) (0 + 2 * j + 1) ≠ 0) ∧
      extractStringsAuxU32 0 (List.replicate 33000 1) (0 + 1) 0 =
        (if (List.replicate 33000 1).length ≤ 0 + 32772 then some []
         else extractStringsAuxU32 0 (List.replicate 33000 1) 0 (0 + 32772))) ∧
    ((0 : Nat) < ([0, 0, 65] : List Nat).length ∧
      byteAt 0 [0, 0, 65] 0 = 0 ∧ byteAt 0 [0, 0, 65] (0 + 1) = 0 ∧
      extractStringsAuxU32 0 [0, 0, 65] (1 + 1) 0 =
        (if ([0, 0, 65] : List Nat).length ≤ 0 + 2 then some []
         else extractStringsAuxU32 0 [0, 0, 65] 1 (0 + 2))) ∧
    (([] : List Nat).length ≤ 3 ∧ extractStringsAuxU32 0 [] (0 + 1) 3 = some []) :=
  ⟨⟨by decide,
    c6_bounded_string_extraction.1 0 [0, 0, 65] (by decide) 2 0,
    c6_bounded_string_extraction.2.1 1 7 [0, 0, 65] (by decide) 2 0⟩,
   ⟨by rw [List.length_replicate]; decide,
    by rw [List.length_replicate]; omega,
    fun j hj => Or.inl (by
      rw [byteAt_replicate 33000 1 0 (0 + 2 * j) (by omega)]
      omega),
    c6_bounded_string_extraction.2.2.1 0 (List.replicate 33000 1) 0 0
      (by rw [List.length_replicate]; decide)
      (by rw [List.length_replicate]; omega)
      (fun j hj => Or.inl (by
        rw [byteAt_replicate 33000 1 0 (0 + 2 * j) (by omega)]
        omega))⟩,
   ⟨by decide, by decide, by decide,
    c6_bounded_string_extraction.2.2.2.1 0 [0, 0, 65] 0 1
      (by decide) (by decide) (by decide) (by decide)⟩,
   ⟨by decide,
    c6_bounded_string_extraction.2.2.2.2.1 0 [] 3 0 (by decide)⟩⟩

/-- An all-zero buffer (in range or out) reads as zero bytes. -/
theorem byteAt_replicate_zero (n i : Nat) :
    byteAt 0 (List.replicate n 0) i = 0 := by
  by_cases h : i < n
  · exact byteAt_replicate n 0 0 i h
  · unfold byteAt
    exact List.getD_eq_default _ _ (by simpa using Nat.le_of_not_lt h)

/-- A 4 GiB - 1 all-zero buffer: every declared record length in it is 0,
hence invalid. -/
def zbufC10 : List Nat := List.replicate 4294967295 0

/-- On `zbufC10` with `bytesRead = 2^32 - 1`, the walk never terminates:
from any 8-aligned cursor below `bytesRead` the realignment step stays
8-aligned and below `bytesRead`, because `offset + 56` and `offset + 8` are
computed modulo 2^32 and wrap near the top. -/
theorem walkFuel_wrap_nonterm :
    ∀ fuel offset (logs : List EventLogData), offset % 8 = 0 → offset < 4294967295 →
      walkFuel 0 "System" "PC" [] zbufC10 4294967295 5 fuel offset logs = none := by
  intro fuel
  induction fuel with
  | zero => intro offset logs _ _; rfl
  | succ fuel ih =>
    intro offset logs h8 hlt
    simp only [walkFuel, U32, sizeof_EVENTLOGRECORD]
    rw [if_pos hlt]
    rw [if_neg (by omega : ¬ 4294967295 < (offset + 56) % 4294967296)]
    have hz : ∀ i, byteAt 0 zbufC10 i = 0 := fun i => byteAt_replicate_zero 4294967295 i
    have hlen : (decodeRecord 0 zbufC10 offset).Length = 0 := by
      show readU32 0 zbufC10 offset = 0
      unfold readU32 readU16
      rw [hz offset, hz (offset + 1), hz (offset + 2), hz (offset + 3)]
    rw [if_pos (Or.inl (by rw [hlen]; omega))]
    rw [if_neg (by omega : ¬ 4294967295 ≤ (offset + 8) % 4294967296)]
    exact ih ((offset + 8) % 4294967296) logs (by omega) (by omega)

/-- C10 counterexample: with `bytesRead = 2^32 - 1` and an all-zero buffer
the record-walking loop does not finish within `2^32 - 1` iterations (if the
cursor grew by at least 8 per iteration, about `2^29` would suffice; by
`walkFuel_wrap_nonterm` no amount of fuel finishes it), because the `uint32`
sums `offset + 56` and `offset + 8` wrap near the top of the range. -/
theorem c10_counterexample :
    walkFuel 0 "System" "PC" [] zbufC10 4294967295 5 4294967295 0 [] = none :=
  walkFuel_wrap_nonterm 4294967295 0 [] rfl (by decide)

/-- C10 (amended): whenever `bytesRead + 56 ≤ 2^32` — so that the `uint32`
cursor sums cannot wrap — the record-walking loop terminates: `8 · fuel`
steps of fuel suffice once `fuel` exceeds an eighth of the bytes left,
because each iteration either stops or advances the cursor, by the
validated declared length (at least the 56-byte header size) for a valid
record and by the fixed 8-byte realignment step for an invalid one. -/
theorem c10_walk_termination :
    (∀ (d : Nat) (ln comp : String) (allow buf : List Nat) (n target : Nat),
      n + sizeof_EVENTLOGRECORD ≤ U32 →
      ∀ fuel offset (logs : List EventLogData), n - offset < 8 * fuel →
        (walkFuel d ln comp allow buf n target fuel offset logs).isSome) ∧
    (∀ (d : Nat) (ln comp : String) (allow buf : List Nat)
        (n target fuel offset : Nat) (logs : List EventLogData),
      offset < n →
      (offset + sizeof_EVENTLOGRECORD) % U32 ≤ n →
      ¬ ((decodeRecord d buf offset).Length < sizeof_EVENTLOGRECORD ∨
          n - offset < (decodeRecord d buf offset).Length) →
      sizeof_EVENTLOGRECORD ≤ (decodeRecord d buf offset).Length ∧
      walkFuel d ln comp allow buf n target (fuel + 1) offset logs =
        (if target ≤ (if passFilter allow (buildEvent d ln comp buf offset)
              then logs ++ [buildEvent d ln comp buf offset] else logs).length
         then some (if passFilter allow (buildEvent d ln comp buf offset)
              then logs ++ [buildEvent d ln comp buf offset] else logs)
         else walkFuel d ln comp allow buf n target fuel
           (offset + (decodeRecord d buf offset).Length)
           (if passFilter allow (buildEvent d ln comp buf offset)
              then logs ++ [buildEvent d ln comp buf offset] else logs))) := by
  constructor
  · intro d ln comp allow buf n target hU fuel
    induction fuel with
    | zero => intro offset logs hm; omega
    | succ fuel ih =>
      intro offset logs hm
      simp only [walkFuel]
      by_cases h1 : offset < n
      · rw [if_pos h1]
        have hmod56 : (offset + sizeof_EVENTLOGRECORD) % U32 =
            offset + sizeof_EVENTLOGRECORD :=
          Nat.mod_eq_of_lt (by simp only [sizeof_EVENTLOGRECORD] at *; omega)
        by_cases h2 : n < (offset + sizeof_EVENTLOGRECORD) % U32
        · rw [if_pos h2]; simp
        · rw [if_neg h2]
          by_cases h3 : (decodeRecord d buf offset).Length < sizeof_EVENTLOGRECORD ∨
              n - offset < (decodeRecord d buf offset).Length
          · rw [if_pos h3]
            have hmod8 : (offset + 8) % U32 = offset + 8 :=
              Nat.mod_eq_of_lt (by simp only [sizeof_EVENTLOGRECORD] at *; omega)
            by_cases h4 : n ≤ (offset + 8) % U32
            · rw [if_pos h4]; simp
            · rw [if_neg h4, hmod8]
              rw [hmod8] at h4
              exact ih (offset + 8) logs (by omega)
          · rw [if_neg h3]
            rw [hmod56] at h2
            push_neg at h3
            by_cases h6 : target ≤ (if passFilter allow (buildEvent d ln comp buf offset)
                then logs ++ [buildEvent d ln comp buf offset] else logs).length
            · rw [if_pos h6]; simp
            · rw [if_neg h6]
              refine ih (offset + (decodeRecord d buf offset).Length) _ ?_
              simp only [sizeof_EVENTLOGRECORD] at *
              omega
      · rw [if_neg h1]; simp
  · intro d ln comp allow buf n target fuel offset logs h1 h2 h3
    refine ⟨by simp only [sizeof_EVENTLOGRECORD] at *; omega, ?_⟩
    simp only [walkFuel]
    rw [if_pos h1, if_neg (not_lt.2 h2), if_neg h3]

set_option maxRecDepth 8000 in
/-- Witness for C10 on the concrete 168-byte buffer: the walk finishes with
22 units of fuel, and at the valid record at offset 56 it advances by the
declared length 56. -/
theorem c10_walk_termination_witness :
    (168 + sizeof_EVENTLOGRECORD ≤ U32 ∧ 168 - 0 < 8 * 22 ∧
      (walkFuel 0 "System" "PC" [] bufCorrupt 168 5 22 0 []).isSome) ∧
    ((56 : Nat) < 168 ∧ (56 + sizeof_EVENTLOGRECORD) % U32 ≤ 168 ∧
      ¬ ((decodeRecord 0 bufCorrupt 56).Length < sizeof_EVENTLOGRECORD ∨
          168 - 56 < (decodeRecord 0 bufCorrupt 56).Length) ∧
      sizeof_EVENTLOGRECORD ≤ (decodeRecord 0 bufCorrupt 56).Length ∧
      walkFuel 0 "System" "PC" [] bufCorrupt 168 5 (3 + 1) 56 [] =
        (if 5 ≤ (if passFilter [] (buildEvent 0 "System" "PC" bufCorrupt 56)
              then [] ++ [buildEvent 0 "System" "PC" bufCorrupt 56] else []).length
         then some (if passFilter [] (buildEvent 0 "System" "PC" bufCorrupt 56)
              then [] ++ [buildEvent 0 "System" "PC" bufCorrupt 56] else [])
         else walkFuel 0 "System" "PC" [] bufCorrupt 168 5 3
           (56 + (decodeRecord 0 bufCorrupt 56).Length)
           (if passFilter [] (buildEvent 0 "System" "PC" bufCorrupt 56)
              then [] ++ [buildEvent 0 "System" "PC" bufCorrupt 56] else []))) :=
  ⟨⟨by decide, by decide,
      c10_walk_termination.1 0 "System" "PC" [] bufCorrupt 168 5 (by decide)
        22 0 [] (by decide)⟩,
    by decide, by decide, by decide,
    (c10_walk_termination.2 0 "System" "PC" [] bufCorrupt 168 5 3 56 []
        (by decide) (by decide) (by decide)).1,
    (c10_walk_termination.2 0 "System" "PC" [] bufCorrupt 168 5 3 56 []
        (by decide) (by decide) (by decide)).2⟩
